import Mathlib

/-!
# Ante-handler pipeline of evmd

A shallow embedding of the transaction admission pipeline:

* `src/simapp/app/ante/handler_options.go` : `HandlerOptions`, `HandlerOptions.Validate`
* `src/app/ante/ante_cosmos.go`            : `App.Ante.NewCosmosAnteHandler`
* `src/app/ante/ante_evm.go`               : `App.Ante.newMonoEVMAnteHandler`
* `src/simapp/app/ante/ante_cosmos.go`     : `SimApp.Ante.NewCosmosAnteHandler`

Go interface, pointer and func values are nilable: a field of such a type is an
`Option`, with `none` standing for `nil`.
-/

namespace Evmd

/-! ## Errors -/

/-- Registered root errors of `github.com/cosmos/cosmos-sdk/types/errors`.  Only
`ErrLogic` (code 35) is referenced by the sources; `other` stands for every other
registered error, identified by its code. -/
inductive RegisteredError
  | ErrLogic
  | other (code : Nat)
  deriving DecidableEq

open RegisteredError

/-- A wrapped error value as produced by `errorsmod.Wrap`: the root error that was
wrapped and the description attached to it. -/
structure WrappedError where
  parent : RegisteredError
  description : String
  deriving DecidableEq

/-- Modelled from the spec: `errorsmod.Wrap` of `cosmossdk.io/errors` is not part of
the repository; it attaches a description to a (non-nil) root error, giving the
"structured logic error" of section 4.1. -/
def Wrap (err : RegisteredError) (description : String) : WrappedError :=
  { parent := err, description := description }

/-! ## Configuration object -/

/-- Identity of a Go interface, pointer or func value handed to the pipeline. -/
abbrev Handle := Nat

/-- The part of `wasmtypes.WasmConfig` read by the pipeline: the field
`SimulationGasLimit` (a `*uint64`). -/
structure WasmConfig where
  SimulationGasLimit : Option Nat
  deriving DecidableEq

/-- The part of `wasmkeeper.Keeper` read by the pipeline: the gas register returned
by `GetGasRegister`. -/
structure WasmKeeper where
  gasRegister : Handle
  deriving DecidableEq

/-- Method `GetGasRegister` of `wasmkeeper.Keeper`. -/
def WasmKeeper.GetGasRegister (k : WasmKeeper) : Handle := k.gasRegister

/-- The struct `HandlerOptions` of `handler_options.go` (lines 45-70).  Every field
of interface, pointer or func type is an `Option`; `MaxTxGasWanted` is a `uint64`
and `ConsumerKeeper` a struct value, neither of which can be nil.  The `uint64` is
a natural number; the values of the Go type are those below `2 ^ 64`, which is the
condition `HandlerOptions.MaxTxGasWantedInRange`. -/
structure HandlerOptions where
  Cdc : Option Handle
  AccountKeeper : Option Handle
  BankKeeper : Option Handle
  FeegrantKeeper : Option Handle
  ExtensionOptionChecker : Option Handle
  SignModeHandler : Option Handle
  SigGasConsumer : Option Handle
  TxFeeChecker : Option Handle
  WasmConfig : Option WasmConfig
  WasmKeeper : Option WasmKeeper
  TXCounterStoreService : Option Handle
  MaxTxGasWanted : Nat
  FeeMarketKeeper : Option Handle
  EvmKeeper : Option Handle
  IBCKeeper : Option Handle
  CircuitKeeper : Option Handle
  ConsumerKeeper : Handle
  deriving DecidableEq

/-- Method `HandlerOptions.Validate` of `handler_options.go` (lines 72-117): the
twelve nil checks in source order, each returning `errorsmod.Wrap(errortypes.ErrLogic, ...)`
with its own description; `none` is the nil error. -/
def HandlerOptions.Validate (options : HandlerOptions) : Option WrappedError :=
  if options.Cdc = none then
    some (Wrap ErrLogic "codec is required for AnteHandler")
  else if options.AccountKeeper = none then
    some (Wrap ErrLogic "account keeper is required for AnteHandler")
  else if options.BankKeeper = none then
    some (Wrap ErrLogic "bank keeper is required for AnteHandler")
  else if options.SigGasConsumer = none then
    some (Wrap ErrLogic "signature gas consumer is required for AnteHandler")
  else if options.SignModeHandler = none then
    some (Wrap ErrLogic "sign mode handler is required for AnteHandler")
  else if options.CircuitKeeper = none then
    some (Wrap ErrLogic "circuit keeper is required for ante builder")
  else if options.WasmConfig = none then
    some (Wrap ErrLogic "wasm config is required for ante builder")
  else if options.TXCounterStoreService = none then
    some (Wrap ErrLogic "wasm store service is required for ante builder")
  else if options.WasmKeeper = none then
    some (Wrap ErrLogic "wasm keeper is required for ante builder")
  else if options.TxFeeChecker = none then
    some (Wrap ErrLogic "tx fee checker is required for AnteHandler")
  else if options.FeeMarketKeeper = none then
    some (Wrap ErrLogic "fee market keeper is required for AnteHandler")
  else if options.EvmKeeper = none then
    some (Wrap ErrLogic "evm keeper is required for AnteHandler")
  else
    none

/-- Names of the fields of `HandlerOptions`. -/
inductive Field
  | Cdc | AccountKeeper | BankKeeper | FeegrantKeeper | ExtensionOptionChecker
  | SignModeHandler | SigGasConsumer | TxFeeChecker
  | WasmConfig | WasmKeeper | TXCounterStoreService
  | MaxTxGasWanted | FeeMarketKeeper | EvmKeeper
  | IBCKeeper | CircuitKeeper | ConsumerKeeper
  deriving DecidableEq

/-- Whether the named field of the options holds Go's `nil`.  The `uint64` field
`MaxTxGasWanted` and the struct-valued field `ConsumerKeeper` never do. -/
def HandlerOptions.isNil (options : HandlerOptions) : Field → Bool
  | .Cdc => options.Cdc.isNone
  | .AccountKeeper => options.AccountKeeper.isNone
  | .BankKeeper => options.BankKeeper.isNone
  | .FeegrantKeeper => options.FeegrantKeeper.isNone
  | .ExtensionOptionChecker => options.ExtensionOptionChecker.isNone
  | .SignModeHandler => options.SignModeHandler.isNone
  | .SigGasConsumer => options.SigGasConsumer.isNone
  | .TxFeeChecker => options.TxFeeChecker.isNone
  | .WasmConfig => options.WasmConfig.isNone
  | .WasmKeeper => options.WasmKeeper.isNone
  | .TXCounterStoreService => options.TXCounterStoreService.isNone
  | .MaxTxGasWanted => false
  | .FeeMarketKeeper => options.FeeMarketKeeper.isNone
  | .EvmKeeper => options.EvmKeeper.isNone
  | .IBCKeeper => options.IBCKeeper.isNone
  | .CircuitKeeper => options.CircuitKeeper.isNone
  | .ConsumerKeeper => false

/-! ## Decorators -/

/-- A fixed-point decimal of `cosmossdk.io/math` (`LegacyDec`): the value is
`scaled / 10^18`. -/
structure LegacyDec where
  scaled : Int
  deriving DecidableEq

/-- Value of a string of decimal digits, most significant digit first. -/
def digitsValue : List Char → Nat → Nat
  | [], acc => acc
  | c :: cs, acc => digitsValue cs (10 * acc + (c.toNat - 48))

/-- Modelled from the spec: `sdkmath.LegacyMustNewDecFromStr` is not part of the
repository; on an unsigned decimal literal with at most 18 fractional digits it
yields that decimal exactly (section 4.5, "floor/ceiling (e.g., 0.10-0.50)").  The
sources call it on the literals "0.10" and "0.50" only. -/
def LegacyMustNewDecFromStr (s : String) : LegacyDec :=
  let cs := s.toList
  let intDigits := cs.takeWhile (fun c => c != '.')
  let fracDigits := (cs.dropWhile (fun c => c != '.')).drop 1
  { scaled := ((digitsValue intDigits 0 * 10 ^ 18
      + digitsValue fracDigits 0 * 10 ^ (18 - fracDigits.length) : Nat) : Int) }

/-- Message types whose type URL is passed to `NewAuthzLimiterDecorator`. -/
inductive MsgType
  | MsgEthereumTx
  | MsgCreateVestingAccount
  deriving DecidableEq

/-- The two whitelist predicates of `consumerdemocracy` passed to
`NewForbiddenProposalsDecorator`. -/
inductive WhitelistFn
  | IsProposalWhitelisted
  | IsModuleWhiteList
  deriving DecidableEq

/-- A decorator value, as returned by one of the constructor functions called in
`ante_cosmos.go` and `ante_evm.go`, together with the arguments it was given. -/
inductive Decorator
  | NewRejectMessagesDecorator
  | NewAuthzLimiterDecorator (disabledMsgTypes : List MsgType)
  | NewSetUpContextDecorator
  | NewMsgFilterDecorator (consumerKeeper : Handle)
  | NewDisabledModulesDecorator (modules : List String)
  | NewForbiddenProposalsDecorator (isProposalWhitelisted isModuleWhiteList : WhitelistFn)
  | NewLimitSimulationGasDecorator (gasLimit : Option Nat)
  | NewCountTXDecorator (storeService : Option Handle)
  | NewGasRegisterDecorator (gasRegister : Handle)
  | NewCircuitBreakerDecorator (circuitKeeper : Option Handle)
  | NewExtensionOptionsDecorator (checker : Option Handle)
  | NewValidateBasicDecorator
  | NewTxTimeoutHeightDecorator
  | NewValidateMemoDecorator (ak : Option Handle)
  | NewMinGasPriceDecorator (feeMarketKeeper evmKeeper : Option Handle)
  | NewConsumeGasForTxSizeDecorator (ak : Option Handle)
  | NewDeductFeeDecorator (ak bk fk tfc : Option Handle)
  | NewSetPubKeyDecorator (ak : Option Handle)
  | NewValidateSigCountDecorator (ak : Option Handle)
  | NewSigGasConsumeDecorator (ak sigGasConsumer : Option Handle)
  | NewSigVerificationDecorator (ak signModeHandler : Option Handle)
  | NewIncrementSequenceDecorator (ak : Option Handle)
  | NewRedundantRelayDecorator (ibcKeeper : Option Handle)
  | NewGasWantedDecorator (evmKeeper feeMarketKeeper : Option Handle)
  | NewPOADisableStakingDecorator
  | NewPOADisableWithdrawDelegatorRewards
  | NewCommissionLimitDecorator (doGenTxRateValidation : Bool) (rateFloor rateCeil : LegacyDec)
  | NewEVMMonoDecorator (accountKeeper feeMarketKeeper evmKeeper : Option Handle)
      (maxGasWanted : Nat)
  deriving DecidableEq

/-- The decorator families, one per constructor function. -/
inductive Kind
  | RejectMessages | AuthzLimiter | SetUpContext | MsgFilter | DisabledModules
  | ForbiddenProposals | LimitSimulationGas | CountTX | GasRegister | CircuitBreaker
  | ExtensionOptions | ValidateBasic | TxTimeoutHeight | ValidateMemo | MinGasPrice
  | ConsumeGasForTxSize | DeductFee | SetPubKey | ValidateSigCount | SigGasConsume
  | SigVerification | IncrementSequence | RedundantRelay | GasWanted
  | POADisableStaking | POADisableWithdrawDelegatorRewards | CommissionLimit | EVMMono
  deriving DecidableEq

/-- The family a decorator value belongs to. -/
def Decorator.kind : Decorator → Kind
  | .NewRejectMessagesDecorator => .RejectMessages
  | .NewAuthzLimiterDecorator _ => .AuthzLimiter
  | .NewSetUpContextDecorator => .SetUpContext
  | .NewMsgFilterDecorator _ => .MsgFilter
  | .NewDisabledModulesDecorator _ => .DisabledModules
  | .NewForbiddenProposalsDecorator _ _ => .ForbiddenProposals
  | .NewLimitSimulationGasDecorator _ => .LimitSimulationGas
  | .NewCountTXDecorator _ => .CountTX
  | .NewGasRegisterDecorator _ => .GasRegister
  | .NewCircuitBreakerDecorator _ => .CircuitBreaker
  | .NewExtensionOptionsDecorator _ => .ExtensionOptions
  | .NewValidateBasicDecorator => .ValidateBasic
  | .NewTxTimeoutHeightDecorator => .TxTimeoutHeight
  | .NewValidateMemoDecorator _ => .ValidateMemo
  | .NewMinGasPriceDecorator _ _ => .MinGasPrice
  | .NewConsumeGasForTxSizeDecorator _ => .ConsumeGasForTxSize
  | .NewDeductFeeDecorator _ _ _ _ => .DeductFee
  | .NewSetPubKeyDecorator _ => .SetPubKey
  | .NewValidateSigCountDecorator _ => .ValidateSigCount
  | .NewSigGasConsumeDecorator _ _ => .SigGasConsume
  | .NewSigVerificationDecorator _ _ => .SigVerification
  | .NewIncrementSequenceDecorator _ => .IncrementSequence
  | .NewRedundantRelayDecorator _ => .RedundantRelay
  | .NewGasWantedDecorator _ _ => .GasWanted
  | .NewPOADisableStakingDecorator => .POADisableStaking
  | .NewPOADisableWithdrawDelegatorRewards => .POADisableWithdrawDelegatorRewards
  | .NewCommissionLimitDecorator _ _ _ => .CommissionLimit
  | .NewEVMMonoDecorator _ _ _ _ => .EVMMono

/-- The families of a decorator list, in list order. -/
def kinds (chain : List Decorator) : List Kind := chain.map Decorator.kind

/-- Position (from 0) of the first decorator of family `k` in the list; the length
of the list when the family does not occur. -/
def position (k : Kind) (chain : List Decorator) : Nat := (kinds chain).indexOf k

/-- Whether some capability of `HandlerOptions` handed to the constructor of this
decorator is nil.  `NewLimitSimulationGasDecorator` and `NewGasRegisterDecorator`
receive values read through the (then non-nil) pointers `WasmConfig` and
`WasmKeeper`; `NewMsgFilterDecorator` receives a struct value; `maxGasWanted` is a
`uint64`. -/
def Decorator.nilCapability : Decorator → Bool
  | .NewCountTXDecorator storeService => storeService.isNone
  | .NewCircuitBreakerDecorator circuitKeeper => circuitKeeper.isNone
  | .NewExtensionOptionsDecorator checker => checker.isNone
  | .NewValidateMemoDecorator ak => ak.isNone
  | .NewMinGasPriceDecorator feeMarketKeeper evmKeeper =>
      feeMarketKeeper.isNone || evmKeeper.isNone
  | .NewConsumeGasForTxSizeDecorator ak => ak.isNone
  | .NewDeductFeeDecorator ak bk fk tfc =>
      ak.isNone || bk.isNone || fk.isNone || tfc.isNone
  | .NewSetPubKeyDecorator ak => ak.isNone
  | .NewValidateSigCountDecorator ak => ak.isNone
  | .NewSigGasConsumeDecorator ak sigGasConsumer => ak.isNone || sigGasConsumer.isNone
  | .NewSigVerificationDecorator ak signModeHandler => ak.isNone || signModeHandler.isNone
  | .NewIncrementSequenceDecorator ak => ak.isNone
  | .NewRedundantRelayDecorator ibcKeeper => ibcKeeper.isNone
  | .NewGasWantedDecorator evmKeeper feeMarketKeeper =>
      evmKeeper.isNone || feeMarketKeeper.isNone
  | .NewEVMMonoDecorator accountKeeper feeMarketKeeper evmKeeper _ =>
      accountKeeper.isNone || feeMarketKeeper.isNone || evmKeeper.isNone
  | _ => false

/-- Whether decorators of this family are constructed from the account keeper or
the bank keeper, the two capabilities through which account state (balances,
public keys, sequences) is read and written. -/
def Kind.usesAccountState : Kind → Bool
  | .ValidateMemo | .ConsumeGasForTxSize | .DeductFee | .SetPubKey | .ValidateSigCount
  | .SigGasConsume | .SigVerification | .IncrementSequence | .EVMMono => true
  | _ => false

/-! ## The decorator lists of the sources -/

namespace App.Ante

/-- The argument list of `sdk.ChainAnteDecorators` in `NewCosmosAnteHandler` of
`src/app/ante/ante_cosmos.go` (lines 14-39).  The `HandlerOptions` of this package
is not among the sources; the fields read here are all fields of the
`HandlerOptions` of `src/simapp/app/ante/handler_options.go`. -/
def NewCosmosAnteHandler.decorators (options : HandlerOptions) : List Decorator :=
  let poaDoGenTxRateValidation := false
  let poaRateFloor := LegacyMustNewDecFromStr "0.10"
  let poaRateCeil := LegacyMustNewDecFromStr "0.50"
  [ .NewSetUpContextDecorator,
    .NewCircuitBreakerDecorator options.CircuitKeeper,
    .NewExtensionOptionsDecorator options.ExtensionOptionChecker,
    .NewValidateBasicDecorator,
    .NewTxTimeoutHeightDecorator,
    .NewValidateMemoDecorator options.AccountKeeper,
    .NewConsumeGasForTxSizeDecorator options.AccountKeeper,
    .NewDeductFeeDecorator options.AccountKeeper options.BankKeeper options.FeegrantKeeper
      options.TxFeeChecker,
    .NewSetPubKeyDecorator options.AccountKeeper,
    .NewValidateSigCountDecorator options.AccountKeeper,
    .NewSigGasConsumeDecorator options.AccountKeeper options.SigGasConsumer,
    .NewSigVerificationDecorator options.AccountKeeper options.SignModeHandler,
    .NewIncrementSequenceDecorator options.AccountKeeper,
    .NewRedundantRelayDecorator options.IBCKeeper,
    .NewPOADisableStakingDecorator,
    .NewPOADisableWithdrawDelegatorRewards,
    .NewCommissionLimitDecorator poaDoGenTxRateValidation poaRateFloor poaRateCeil ]

/-- The argument list of `sdk.ChainAnteDecorators` in `newMonoEVMAnteHandler` of
`src/app/ante/ante_evm.go` (lines 9-18). -/
def newMonoEVMAnteHandler.decorators (options : HandlerOptions) : List Decorator :=
  [ .NewEVMMonoDecorator options.AccountKeeper options.FeeMarketKeeper options.EvmKeeper
      options.MaxTxGasWanted ]

end App.Ante

namespace SimApp.Ante

/-- The argument list of `sdk.ChainAnteDecorators` in `NewCosmosAnteHandler` of
`src/simapp/app/ante/ante_cosmos.go` (lines 22-62).  The arguments are evaluated
before the call; `options.WasmConfig.SimulationGasLimit` and
`options.WasmKeeper.GetGasRegister()` dereference pointers, and `none` is the
run-time panic of a nil dereference. -/
def NewCosmosAnteHandler.decorators (options : HandlerOptions) : Option (List Decorator) := do
  let poaDoGenTxRateValidation := false
  let poaRateFloor := LegacyMustNewDecFromStr "0.10"
  let poaRateCeil := LegacyMustNewDecFromStr "0.50"
  let wasmConfig ← options.WasmConfig
  let wasmKeeper ← options.WasmKeeper
  pure
    [ .NewRejectMessagesDecorator,
      .NewAuthzLimiterDecorator [.MsgEthereumTx, .MsgCreateVestingAccount],
      .NewSetUpContextDecorator,
      .NewMsgFilterDecorator options.ConsumerKeeper,
      .NewDisabledModulesDecorator ["/cosmos.evidence", "/cosmos.slashing"],
      .NewForbiddenProposalsDecorator .IsProposalWhitelisted .IsModuleWhiteList,
      .NewLimitSimulationGasDecorator wasmConfig.SimulationGasLimit,
      .NewCountTXDecorator options.TXCounterStoreService,
      .NewGasRegisterDecorator wasmKeeper.GetGasRegister,
      .NewCircuitBreakerDecorator options.CircuitKeeper,
      .NewExtensionOptionsDecorator options.ExtensionOptionChecker,
      .NewValidateBasicDecorator,
      .NewTxTimeoutHeightDecorator,
      .NewValidateMemoDecorator options.AccountKeeper,
      .NewMinGasPriceDecorator options.FeeMarketKeeper options.EvmKeeper,
      .NewConsumeGasForTxSizeDecorator options.AccountKeeper,
      .NewDeductFeeDecorator options.AccountKeeper options.BankKeeper options.FeegrantKeeper
        options.TxFeeChecker,
      .NewSetPubKeyDecorator options.AccountKeeper,
      .NewValidateSigCountDecorator options.AccountKeeper,
      .NewSigGasConsumeDecorator options.AccountKeeper options.SigGasConsumer,
      .NewSigVerificationDecorator options.AccountKeeper options.SignModeHandler,
      .NewIncrementSequenceDecorator options.AccountKeeper,
      .NewRedundantRelayDecorator options.IBCKeeper,
      .NewGasWantedDecorator options.EvmKeeper options.FeeMarketKeeper,
      .NewPOADisableStakingDecorator,
      .NewPOADisableWithdrawDelegatorRewards,
      .NewCommissionLimitDecorator poaDoGenTxRateValidation poaRateFloor poaRateCeil ]

end SimApp.Ante

/-- An options value with every nilable field set, used as the base of concrete
examples. -/
def fullOptions : HandlerOptions :=
  { Cdc := some 1, AccountKeeper := some 2, BankKeeper := some 3, FeegrantKeeper := some 4,
    ExtensionOptionChecker := some 5, SignModeHandler := some 6, SigGasConsumer := some 7,
    TxFeeChecker := some 8, WasmConfig := some { SimulationGasLimit := some 50000000 },
    WasmKeeper := some { gasRegister := 9 }, TXCounterStoreService := some 10,
    MaxTxGasWanted := 30000000, FeeMarketKeeper := some 11, EvmKeeper := some 12,
    IBCKeeper := some 13, CircuitKeeper := some 14, ConsumerKeeper := 15 }

/-- Whether at least one capability that a decorator of the active pipeline is
constructed from is absent: building the standard chain dereferences a nil
`WasmConfig` or `WasmKeeper`, or some decorator of the standard or of the EVM
chain received a nil capability. -/
def capabilityAbsent (options : HandlerOptions) : Bool :=
  match SimApp.Ante.NewCosmosAnteHandler.decorators options with
  | none => true
  | some chain =>
      (chain ++ App.Ante.newMonoEVMAnteHandler.decorators options).any Decorator.nilCapability

/-! ## Chain builder -/

/-- What a handler returns: Go's pair `(sdk.Context, error)` (`err = none` is the nil
error), the store the keepers write to as it is after the call, and the trace of
decorator invocations recorded so far. -/
structure Outcome (ν Ctx Err σ : Type) where
  ctx : Ctx
  err : Option Err
  store : σ
  trace : List ν

/-- The type `sdk.AnteHandler`: `func(ctx, tx, simulate) (newCtx, err)`, run against
a store and a trace. -/
abbrev AnteHandler (ν Ctx Tx Err σ : Type) :=
  Ctx → Tx → Bool → σ → List ν → Outcome ν Ctx Err σ

/-- The method `AnteHandle(ctx, tx, simulate, next)` of `sdk.AnteDecorator`. -/
abbrev AnteHandleFn (ν Ctx Tx Err σ : Type) :=
  Ctx → Tx → Bool → AnteHandler ν Ctx Tx Err σ → σ → List ν → Outcome ν Ctx Err σ

/-- An `sdk.AnteDecorator`: its `AnteHandle` method, and the name under which its
invocations are recorded. -/
structure AnteDecorator (ν Ctx Tx Err σ : Type) where
  name : ν
  AnteHandle : AnteHandleFn ν Ctx Tx Err σ

/-- Modelled from the spec: `sdk.ChainAnteDecorators` is not part of the repository.
Section 4.2: "Binds decorators into a right-folded continuation chain: decorator
i's continuation is decorator i+1; the final continuation returns success with
the context unchanged."  Each handler of the chain records the invocation of its
decorator before calling it (section 8, "instrumented decorators record invocation
order"). -/
def ChainAnteDecorators {ν Ctx Tx Err σ : Type} :
    List (AnteDecorator ν Ctx Tx Err σ) → AnteHandler ν Ctx Tx Err σ
  | [] => fun ctx _ _ store trace =>
      { ctx := ctx, err := none, store := store, trace := trace }
  | d :: rest => fun ctx tx simulate store trace =>
      d.AnteHandle ctx tx simulate (ChainAnteDecorators rest) store (trace ++ [d.name])

/-- The decorator, called with context `ctx` on store `store`, calls its
continuation: its result is whatever `next` returns on the context `ctx'` and the
store `store'` that its own work produced. -/
def CallsNext {ν Ctx Tx Err σ : Type} (d : AnteDecorator ν Ctx Tx Err σ)
    (ctx : Ctx) (tx : Tx) (simulate : Bool) (store : σ) (ctx' : Ctx) (store' : σ) : Prop :=
  ∀ (next : AnteHandler ν Ctx Tx Err σ) (trace : List ν),
    d.AnteHandle ctx tx simulate next store trace = next ctx' tx simulate store' trace

/-- The decorator, called with context `ctx` on store `store`, returns the error `e`
without calling its continuation, leaving the store as `store'`. -/
def ReturnsError {ν Ctx Tx Err σ : Type} (d : AnteDecorator ν Ctx Tx Err σ)
    (ctx : Ctx) (tx : Tx) (simulate : Bool) (store : σ) (ctx' : Ctx) (e : Err) (store' : σ) :
    Prop :=
  ∀ (next : AnteHandler ν Ctx Tx Err σ) (trace : List ν),
    d.AnteHandle ctx tx simulate next store trace =
      { ctx := ctx', err := some e, store := store', trace := trace }

/-- In the run of the chain `ds` that starts from `cs 0`, the decorators at the
positions below `k` each call their continuation: decorator `i` is entered with
the context and store `cs i` and hands `cs (i + 1)` to decorator `i + 1`. -/
def PassesBefore {ν Ctx Tx Err σ : Type} (ds : List (AnteDecorator ν Ctx Tx Err σ))
    (tx : Tx) (simulate : Bool) (cs : Nat → Ctx × σ) (k : Nat) : Prop :=
  ∀ (i : Nat) (h : i < ds.length), i < k →
    CallsNext (ds.get ⟨i, h⟩) (cs i).1 tx simulate (cs i).2 (cs (i + 1)).1 (cs (i + 1)).2

/-- A run of the chain `ds` from `cs 0` that gets as far as position `k`: the
decorators before `k` call their continuation, and, when `k` is a position of the
chain, decorator `k` returns an error without calling its continuation (when `k`
is the length of the chain, every decorator called its continuation). -/
def RunsTo {ν Ctx Tx Err σ : Type} (ds : List (AnteDecorator ν Ctx Tx Err σ))
    (tx : Tx) (simulate : Bool) (cs : Nat → Ctx × σ) (k : Nat) : Prop :=
  k ≤ ds.length ∧ PassesBefore ds tx simulate cs k ∧
    ∀ (h : k < ds.length), ∃ ctx' e store',
      ReturnsError (ds.get ⟨k, h⟩) (cs k).1 tx simulate (cs k).2 ctx' e store'

/-- A decorator value of the sources together with its behaviour `sem d`, which is
the code of its `AnteHandle` method in the library that provides it. -/
def instantiate {Ctx Tx Err σ : Type} (sem : Decorator → AnteHandleFn Decorator Ctx Tx Err σ)
    (d : Decorator) : AnteDecorator Decorator Ctx Tx Err σ :=
  { name := d, AnteHandle := sem d }

/-- Function `NewCosmosAnteHandler` of `src/app/ante/ante_cosmos.go`:
`sdk.ChainAnteDecorators` applied to the decorator list. -/
def App.Ante.NewCosmosAnteHandler {Ctx Tx Err σ : Type}
    (sem : Decorator → AnteHandleFn Decorator Ctx Tx Err σ) (options : HandlerOptions) :
    AnteHandler Decorator Ctx Tx Err σ :=
  ChainAnteDecorators ((App.Ante.NewCosmosAnteHandler.decorators options).map (instantiate sem))

/-- Function `newMonoEVMAnteHandler` of `src/app/ante/ante_evm.go`:
`sdk.ChainAnteDecorators` applied to the one-element decorator list. -/
def App.Ante.newMonoEVMAnteHandler {Ctx Tx Err σ : Type}
    (sem : Decorator → AnteHandleFn Decorator Ctx Tx Err σ) (options : HandlerOptions) :
    AnteHandler Decorator Ctx Tx Err σ :=
  ChainAnteDecorators ((App.Ante.newMonoEVMAnteHandler.decorators options).map (instantiate sem))

/-- Function `NewCosmosAnteHandler` of `src/simapp/app/ante/ante_cosmos.go`:
`sdk.ChainAnteDecorators` applied to the decorator list; `none` when evaluating
the list panics. -/
def SimApp.Ante.NewCosmosAnteHandler {Ctx Tx Err σ : Type}
    (sem : Decorator → AnteHandleFn Decorator Ctx Tx Err σ) (options : HandlerOptions) :
    Option (AnteHandler Decorator Ctx Tx Err σ) :=
  (SimApp.Ante.NewCosmosAnteHandler.decorators options).map
    (fun chain => ChainAnteDecorators (chain.map (instantiate sem)))

/-! ## Configuration validator -/

/-- The twelve capabilities checked by `Validate`, in the order Cdc, AccountKeeper,
BankKeeper, SigGasConsumer, SignModeHandler, CircuitKeeper, WasmConfig,
TXCounterStoreService, WasmKeeper, TxFeeChecker, FeeMarketKeeper, EvmKeeper, each
with the description of the error that names it. -/
def validateOrder : List (Field × String) :=
  [ (.Cdc, "codec is required for AnteHandler"),
    (.AccountKeeper, "account keeper is required for AnteHandler"),
    (.BankKeeper, "bank keeper is required for AnteHandler"),
    (.SigGasConsumer, "signature gas consumer is required for AnteHandler"),
    (.SignModeHandler, "sign mode handler is required for AnteHandler"),
    (.CircuitKeeper, "circuit keeper is required for ante builder"),
    (.WasmConfig, "wasm config is required for ante builder"),
    (.TXCounterStoreService, "wasm store service is required for ante builder"),
    (.WasmKeeper, "wasm keeper is required for ante builder"),
    (.TxFeeChecker, "tx fee checker is required for AnteHandler"),
    (.FeeMarketKeeper, "fee market keeper is required for AnteHandler"),
    (.EvmKeeper, "evm keeper is required for AnteHandler") ]

/-- The error for the first nil capability in the order of `validateOrder`: a wrap
of `ErrLogic` with the description of that capability; `none` when no capability
of the list is nil. -/
def firstMissing (options : HandlerOptions) : Option WrappedError :=
  (validateOrder.find? (fun p => options.isNil p.1)).map (fun p => Wrap ErrLogic p.2)

/-! ## Properties of the standard chains -/

/-- The list `chain` is a standard chain for `options`: the decorator list that
`NewCosmosAnteHandler` hands to the chain builder, in the `app/ante` variant or in
the `simapp/app/ante` variant. -/
def IsStandardChain (options : HandlerOptions) (chain : List Decorator) : Prop :=
  chain = App.Ante.NewCosmosAnteHandler.decorators options
    ∨ SimApp.Ante.NewCosmosAnteHandler.decorators options = some chain

/-- In the run whose outcome is `out`, every invocation of a decorator of one of the
families `later` comes after an invocation of a decorator of the family `first`
which called its continuation: the trace holds such a decorator at an earlier
position `i`, where it was entered with `cs i` and handed `cs (i + 1)` on. -/
def InvokedAfterPassing {Ctx Tx Err σ : Type}
    (sem : Decorator → AnteHandleFn Decorator Ctx Tx Err σ) (tx : Tx) (simulate : Bool)
    (cs : Nat → Ctx × σ) (out : Outcome Decorator Ctx Err σ) (first : Kind)
    (later : List Kind) : Prop :=
  ∀ (j : Nat) (X : Decorator), out.trace[j]? = some X → X.kind ∈ later →
    ∃ (i : Nat) (P : Decorator), i < j ∧ out.trace[i]? = some P ∧ P.kind = first ∧
      CallsNext (instantiate sem P) (cs i).1 tx simulate (cs i).2 (cs (i + 1)).1 (cs (i + 1)).2

/-- Only the sequence-increment decorator writes sequences: the own work of a
decorator of any other family leaves the observation `seq` of the store (the
sequence of the sender) as it was, whether the decorator then calls its
continuation or returns an error. -/
def OnlyIncrementSequenceWrites {Ctx Tx Err σ : Type}
    (sem : Decorator → AnteHandleFn Decorator Ctx Tx Err σ) (seq : σ → Nat) : Prop :=
  ∀ (d : Decorator), d.kind ≠ Kind.IncrementSequence →
    ∀ (ctx : Ctx) (tx : Tx) (simulate : Bool) (store : σ) (ctx' : Ctx) (store' : σ),
      (CallsNext (instantiate sem d) ctx tx simulate store ctx' store' → seq store' = seq store)
      ∧ (∀ e, ReturnsError (instantiate sem d) ctx tx simulate store ctx' e store' →
          seq store' = seq store)

/-! ## Sample behaviours, for concrete runs -/

/-- A behaviour of the decorators over a store that holds one sequence number: the
decorators of the family `failing` return error 1, the sequence-increment
decorator adds one to the sequence and calls its continuation, every other
decorator calls its continuation and changes nothing. -/
def sampleSem (failing : Option Kind) : Decorator → AnteHandleFn Decorator Nat Unit Nat Nat :=
  fun d ctx tx simulate next store trace =>
    if some d.kind = failing then
      { ctx := ctx, err := some 1, store := store, trace := trace }
    else if d.kind = Kind.IncrementSequence then next ctx tx simulate (store + 1) trace
    else next ctx tx simulate store trace

/-- A decorator named `n` that adds `n` to the context and calls its continuation. -/
def passing (n : Nat) : AnteDecorator Nat Nat Unit Nat Unit :=
  { name := n
    AnteHandle := fun ctx tx simulate next store trace => next (ctx + n) tx simulate store trace }

/-- A decorator named `n` that returns the error `n` without calling its
continuation. -/
def failing (n : Nat) : AnteDecorator Nat Nat Unit Nat Unit :=
  { name := n
    AnteHandle := fun ctx _ _ _ store trace =>
      { ctx := ctx, err := some n, store := store, trace := trace } }

/-! ## Commission limits and optional modules -/

/-- Method `GT` of `LegacyDec`: whether the decimal is strictly greater than `d2`. -/
def LegacyDec.GT (d d2 : LegacyDec) : Bool := decide (d2.scaled < d.scaled)

/-- Method `LT` of `LegacyDec`: whether the decimal is strictly less than `d2`. -/
def LegacyDec.LT (d d2 : LegacyDec) : Bool := decide (d.scaled < d2.scaled)

/-- Modelled from the spec: the ceiling check of the commission-limit decorator
(`poaante.NewCommissionLimitDecorator` is not part of the repository).  Section 8:
a transaction "exceeding the configured commission-rate ceiling (e.g., rate = 0.60
against ceiling 0.50) is rejected by the commission-limit decorator"; no other
decorator limits commission rates. -/
def Decorator.rejectsCommissionRate : Decorator → LegacyDec → Bool
  | .NewCommissionLimitDecorator _ _ rateCeil, rate => rate.GT rateCeil
  | _, _ => false

/-- The families of the optional-module decorators of the simapp standard chain:
the EVM message filters and gas checks, the consumer-chain filters, and the wasm
decorators. -/
def optionalModuleKinds : List Kind :=
  [ .RejectMessages, .AuthzLimiter, .MsgFilter, .DisabledModules, .ForbiddenProposals,
    .LimitSimulationGas, .CountTX, .GasRegister, .MinGasPrice, .GasWanted ]

/-- The chain with the optional-module decorators deleted. -/
def withoutOptionalModules (chain : List Decorator) : List Decorator :=
  chain.filter (fun d => !(optionalModuleKinds.contains d.kind))

/-- The contexts and stores of the run of the `app/ante` chain under `sampleSem`
from context 0 and sequence 0 in which every decorator before the last calls its
continuation: the sequence is 1 once the sequence-increment decorator, at
position 12, has run. -/
def sampleStates (i : Nat) : Nat × Nat := (0, if i ≤ 12 then 0 else 1)

/-! ## The EVM mono decorator -/

/-- The number of values of the Go type `uint64`. -/
def uint64Size : Nat := 2 ^ 64

/-- Addition of two Go `uint64` values, which wraps around at `2 ^ 64`. -/
def uint64Add (a b : Nat) : Nat := (a + b) % uint64Size

/-- The field `MaxTxGasWanted` holds a value of its Go type `uint64`. -/
def HandlerOptions.MaxTxGasWantedInRange (options : HandlerOptions) : Prop :=
  options.MaxTxGasWanted < uint64Size

instance (options : HandlerOptions) : Decidable options.MaxTxGasWantedInRange :=
  inferInstanceAs (Decidable (options.MaxTxGasWanted < uint64Size))

/-- What the gas-wanted ceiling reads of a transaction of the EVM wire type: its gas
wanted, a `uint64`. -/
structure EvmTx where
  gasWanted : Nat
  deriving DecidableEq

/-- The gas wanted of the transaction is a value of its Go type `uint64`. -/
def EvmTx.InRange (tx : EvmTx) : Prop := tx.gasWanted < uint64Size

instance (tx : EvmTx) : Decidable tx.InRange :=
  inferInstanceAs (Decidable (tx.gasWanted < uint64Size))

/-- The admission errors of the EVM mono decorator: the gas wanted exceeds the
configured maximum, or a fee-market check of the execution engine failed (with the
code of that check). -/
inductive EvmAnteError
  | exceededGasCeiling
  | feeMarket (code : Nat)
  deriving DecidableEq

/-- Modelled from the spec: the method `AnteHandle` of the EVM mono decorator
(`evmante.NewEVMMonoDecorator` is not part of the repository).  Section 4.4: "a
single composite decorator validates gas-wanted ceiling against a configured
maximum, checks/consumes gas against the execution engine's own fee-market rules";
section 8: "gas wanted = configured max + 1 is rejected; gas wanted = configured
max is accepted (boundary inclusive)".  The fee-market rules are the parameter
`feeMarket`, which fails with a code or yields the context and store after the gas
was consumed. -/
def evmMonoAnteHandle {Ctx σ : Type}
    (feeMarket : Ctx → σ → EvmTx → Except Nat (Ctx × σ)) (maxGasWanted : Nat) :
    AnteHandleFn Decorator Ctx EvmTx EvmAnteError σ :=
  fun ctx tx simulate next store trace =>
    if maxGasWanted < tx.gasWanted then
      { ctx := ctx, err := some EvmAnteError.exceededGasCeiling, store := store, trace := trace }
    else
      match feeMarket ctx store tx with
      | .error code =>
          { ctx := ctx, err := some (EvmAnteError.feeMarket code), store := store,
            trace := trace }
      | .ok (ctx', store') => next ctx' tx simulate store' trace

/-- The behaviour of the decorators on transactions of the EVM wire type: the EVM
mono decorator behaves as `evmMonoAnteHandle` with the maximum it was constructed
with; the behaviour of every other decorator is the parameter `other`. -/
def evmSem {Ctx σ : Type} (feeMarket : Ctx → σ → EvmTx → Except Nat (Ctx × σ))
    (other : Decorator → AnteHandleFn Decorator Ctx EvmTx EvmAnteError σ) :
    Decorator → AnteHandleFn Decorator Ctx EvmTx EvmAnteError σ
  | .NewEVMMonoDecorator _ _ _ maxGasWanted => evmMonoAnteHandle feeMarket maxGasWanted
  | d => other d

/-- A fee market that lets every transaction pass and consumes nothing. -/
def sampleFeeMarket : Nat → Nat → EvmTx → Except Nat (Nat × Nat) :=
  fun ctx store _ => .ok (ctx, store)

/-- A behaviour of the other decorators on EVM transactions: each calls its
continuation. -/
def sampleOther : Decorator → AnteHandleFn Decorator Nat EvmTx EvmAnteError Nat :=
  fun _ ctx tx simulate next store trace => next ctx tx simulate store trace

/-! ## Lemmas on the chain builder -/

theorem chain_passes {ν Ctx Tx Err σ : Type} (ds : List (AnteDecorator ν Ctx Tx Err σ))
    (tx : Tx) (simulate : Bool) :
    ∀ (k : Nat) (cs : Nat → Ctx × σ), k ≤ ds.length → PassesBefore ds tx simulate cs k →
      ∀ trace, ChainAnteDecorators ds (cs 0).1 tx simulate (cs 0).2 trace =
        ChainAnteDecorators (ds.drop k) (cs k).1 tx simulate (cs k).2
          (trace ++ (ds.take k).map AnteDecorator.name) := by
  induction ds with
  | nil =>
    intro k cs hk _ trace
    have hk0 : k = 0 := by simpa using hk
    subst hk0
    simp
  | cons d rest ih =>
    intro k cs hk hpass trace
    cases k with
    | zero => simp
    | succ k =>
      have h0 : CallsNext d (cs 0).1 tx simulate (cs 0).2 (cs 1).1 (cs 1).2 :=
        hpass 0 (by simp) (by omega)
      have hrest : PassesBefore rest tx simulate (fun i => cs (i + 1)) k := by
        intro i hi hik
        have := hpass (i + 1) (by simpa using hi) (by omega)
        simpa using this
      have hk' : k ≤ rest.length := by simpa using hk
      have := ih k (fun i => cs (i + 1)) hk' hrest (trace ++ [d.name])
      simp only [ChainAnteDecorators, List.drop_succ_cons, List.take_succ_cons, List.map_cons]
      rw [h0 (ChainAnteDecorators rest) (trace ++ [d.name])]
      simp only [Nat.zero_add] at this
      rw [this]
      simp

/-! ## Lemmas on the configuration validator -/

theorem validate_eq_none_iff (options : HandlerOptions) :
    options.Validate = none ↔
      (options.Cdc.isSome = true ∧ options.AccountKeeper.isSome = true ∧ options.BankKeeper.isSome = true
        ∧ options.SigGasConsumer.isSome = true ∧ options.SignModeHandler.isSome = true
        ∧ options.CircuitKeeper.isSome = true ∧ options.WasmConfig.isSome = true
        ∧ options.TXCounterStoreService.isSome = true ∧ options.WasmKeeper.isSome = true
        ∧ options.TxFeeChecker.isSome = true ∧ options.FeeMarketKeeper.isSome = true
        ∧ options.EvmKeeper.isSome = true) := by
  by_cases h1 : options.Cdc = none
  · simp [HandlerOptions.Validate, h1]
  by_cases h2 : options.AccountKeeper = none
  · simp [HandlerOptions.Validate, h1, h2]
  by_cases h3 : options.BankKeeper = none
  · simp [HandlerOptions.Validate, h1, h2, h3]
  by_cases h4 : options.SigGasConsumer = none
  · simp [HandlerOptions.Validate, h1, h2, h3, h4]
  by_cases h5 : options.SignModeHandler = none
  · simp [HandlerOptions.Validate, h1, h2, h3, h4, h5]
  by_cases h6 : options.CircuitKeeper = none
  · simp [HandlerOptions.Validate, h1, h2, h3, h4, h5, h6]
  by_cases h7 : options.WasmConfig = none
  · simp [HandlerOptions.Validate, h1, h2, h3, h4, h5, h6, h7]
  by_cases h8 : options.TXCounterStoreService = none
  · simp [HandlerOptions.Validate, h1, h2, h3, h4, h5, h6, h7, h8]
  by_cases h9 : options.WasmKeeper = none
  · simp [HandlerOptions.Validate, h1, h2, h3, h4, h5, h6, h7, h8, h9]
  by_cases h10 : options.TxFeeChecker = none
  · simp [HandlerOptions.Validate, h1, h2, h3, h4, h5, h6, h7, h8, h9, h10]
  by_cases h11 : options.FeeMarketKeeper = none
  · simp [HandlerOptions.Validate, h1, h2, h3, h4, h5, h6, h7, h8, h9, h10, h11]
  by_cases h12 : options.EvmKeeper = none
  · simp [HandlerOptions.Validate, h1, h2, h3, h4, h5, h6, h7, h8, h9, h10, h11, h12]
  simp [HandlerOptions.Validate, h1, h2, h3, h4, h5, h6, h7, h8, h9, h10, h11, h12,
    Option.isSome_iff_ne_none]

theorem capabilityAbsent_eq_false_iff (options : HandlerOptions) :
    capabilityAbsent options = false ↔
      (options.WasmConfig.isSome = true ∧ options.WasmKeeper.isSome = true
        ∧ options.TXCounterStoreService.isSome = true ∧ options.CircuitKeeper.isSome = true
        ∧ options.ExtensionOptionChecker.isSome = true ∧ options.AccountKeeper.isSome = true
        ∧ options.FeeMarketKeeper.isSome = true ∧ options.EvmKeeper.isSome = true
        ∧ options.BankKeeper.isSome = true ∧ options.FeegrantKeeper.isSome = true
        ∧ options.TxFeeChecker.isSome = true ∧ options.SigGasConsumer.isSome = true
        ∧ options.SignModeHandler.isSome = true ∧ options.IBCKeeper.isSome = true) := by
  obtain ⟨cdc, ak, bk, fk, ec, smh, sgc, tfc, wc, wk, tcs, mx, fmk, ek, ibc, ck, cons⟩ := options
  cases wc <;> cases wk <;>
    simp [capabilityAbsent, SimApp.Ante.NewCosmosAnteHandler.decorators,
      App.Ante.newMonoEVMAnteHandler.decorators, Decorator.nilCapability,
      Option.isNone_iff_eq_none]
  tauto

theorem chain_all_pass {ν Ctx Tx Err σ : Type} (ds : List (AnteDecorator ν Ctx Tx Err σ))
    (tx : Tx) (simulate : Bool) (cs : Nat → Ctx × σ)
    (hpass : PassesBefore ds tx simulate cs ds.length) :
    ChainAnteDecorators ds (cs 0).1 tx simulate (cs 0).2 [] =
      { ctx := (cs ds.length).1, err := none, store := (cs ds.length).2,
        trace := ds.map AnteDecorator.name } := by
  have h := chain_passes ds tx simulate ds.length cs le_rfl hpass []
  simpa [ChainAnteDecorators] using h

theorem chain_abort {ν Ctx Tx Err σ : Type} (ds : List (AnteDecorator ν Ctx Tx Err σ))
    (tx : Tx) (simulate : Bool) (cs : Nat → Ctx × σ) (k : Nat) (hk : k < ds.length)
    (hpass : PassesBefore ds tx simulate cs k) (ctx' : Ctx) (e : Err) (store' : σ)
    (hret : ReturnsError (ds.get ⟨k, hk⟩) (cs k).1 tx simulate (cs k).2 ctx' e store') :
    ChainAnteDecorators ds (cs 0).1 tx simulate (cs 0).2 [] =
      { ctx := ctx', err := some e, store := store',
        trace := (ds.take (k + 1)).map AnteDecorator.name } := by
  have h := chain_passes ds tx simulate k cs hk.le hpass []
  rw [h, List.drop_eq_getElem_cons hk]
  simp only [ChainAnteDecorators, List.nil_append]
  have h2 := hret (ChainAnteDecorators (List.drop (k + 1) ds))
    (List.map AnteDecorator.name (List.take k ds) ++ [ds[k].name])
  simp only [List.get_eq_getElem] at h2
  rw [h2]
  have h3 : List.map AnteDecorator.name (List.take (k + 1) ds) =
      List.map AnteDecorator.name (List.take k ds) ++ [ds[k].name] := by
    rw [List.take_succ, List.getElem?_eq_getElem hk]
    simp only [Option.toList, List.map_append, List.map_cons, List.map_nil]
  rw [h3]

theorem chain_trace {ν Ctx Tx Err σ : Type} (ds : List (AnteDecorator ν Ctx Tx Err σ))
    (tx : Tx) (simulate : Bool) (cs : Nat → Ctx × σ) (k : Nat)
    (hrun : RunsTo ds tx simulate cs k) :
    (ChainAnteDecorators ds (cs 0).1 tx simulate (cs 0).2 []).trace =
      (ds.take (k + 1)).map AnteDecorator.name := by
  obtain ⟨hk, hpass, hstop⟩ := hrun
  rcases Nat.lt_or_ge k ds.length with hlt | hge
  · obtain ⟨ctx', e, store', hret⟩ := hstop hlt
    rw [chain_abort ds tx simulate cs k hlt hpass ctx' e store' hret]
  · have hkl : k = ds.length := le_antisymm hk hge
    subst hkl
    rw [chain_all_pass ds tx simulate cs hpass, List.take_of_length_le (Nat.le_succ _)]

theorem instantiate_names {Ctx Tx Err σ : Type}
    (sem : Decorator → AnteHandleFn Decorator Ctx Tx Err σ) (L : List Decorator) :
    (L.map (instantiate sem)).map AnteDecorator.name = L := by
  induction L with
  | nil => rfl
  | cons d rest ih => simp [instantiate] at ih ⊢; exact ih

theorem standard_trace {Ctx Tx Err σ : Type}
    (sem : Decorator → AnteHandleFn Decorator Ctx Tx Err σ) (L : List Decorator)
    (tx : Tx) (simulate : Bool) (cs : Nat → Ctx × σ) (k : Nat)
    (hrun : RunsTo (L.map (instantiate sem)) tx simulate cs k) :
    (ChainAnteDecorators (L.map (instantiate sem)) (cs 0).1 tx simulate (cs 0).2 []).trace =
      L.take (k + 1) := by
  rw [chain_trace _ tx simulate cs k hrun, ← List.map_take, instantiate_names]

theorem kind_at_position (first : Kind) (L : List Decorator)
    (h : position first L < L.length) : (L.get ⟨position first L, h⟩).kind = first := by
  have h1 : (kinds L).indexOf first < (kinds L).length := by simpa [kinds, position] using h
  have h2 := List.indexOf_get h1
  simp only [kinds, List.get_eq_getElem, List.getElem_map] at h2
  simpa [position, kinds] using h2

theorem position_lt_of_take_all (L : List Decorator) (first : Kind) (later : List Kind)
    (hall : ((kinds L).take (position first L + 1)).all (fun kd => !(later.contains kd)) = true) :
    ∀ (j : Nat) (X : Decorator), L[j]? = some X → X.kind ∈ later → position first L < j := by
  intro j X hj hX
  by_contra hcon
  have hjp : j < position first L + 1 := by omega
  have hk : (kinds L)[j]? = some X.kind := by simp [kinds, hj]
  have hmem : X.kind ∈ (kinds L).take (position first L + 1) := by
    rw [List.mem_iff_getElem?]
    exact ⟨j, by rw [List.getElem?_take_of_lt hjp]; exact hk⟩
  have := (List.all_eq_true.mp hall) X.kind hmem
  simp [hX] at this

theorem invokedAfterPassing_of_position {Ctx Tx Err σ : Type}
    (sem : Decorator → AnteHandleFn Decorator Ctx Tx Err σ) (L : List Decorator)
    (tx : Tx) (simulate : Bool) (cs : Nat → Ctx × σ) (k : Nat)
    (hrun : RunsTo (L.map (instantiate sem)) tx simulate cs k)
    (first : Kind) (later : List Kind) (hfirst : position first L < L.length)
    (hlater : ∀ (j : Nat) (X : Decorator), L[j]? = some X → X.kind ∈ later →
      position first L < j) :
    InvokedAfterPassing sem tx simulate cs
      (ChainAnteDecorators (L.map (instantiate sem)) (cs 0).1 tx simulate (cs 0).2 [])
      first later := by
  intro j X hj hX
  rw [standard_trace sem L tx simulate cs k hrun] at hj ⊢
  have hjk : j < k + 1 := by
    by_contra hcon
    rw [List.getElem?_take_eq_none (by omega)] at hj
    exact absurd hj (by simp)
  rw [List.getElem?_take_of_lt hjk] at hj
  have hij := hlater j X hj hX
  refine ⟨position first L, L.get ⟨position first L, hfirst⟩, hij, ?_, ?_, ?_⟩
  · rw [List.getElem?_take_of_lt (by omega)]
    simp [List.getElem?_eq_getElem hfirst]
  · exact kind_at_position first L hfirst
  · have hlen : position first L < (L.map (instantiate sem)).length := by simpa using hfirst
    have := hrun.2.1 (position first L) hlen (by omega)
    simpa using this

/-! ## Lemmas on the decorator lists -/

theorem app_kinds (options : HandlerOptions) :
    kinds (App.Ante.NewCosmosAnteHandler.decorators options) =
      [ .SetUpContext, .CircuitBreaker, .ExtensionOptions, .ValidateBasic, .TxTimeoutHeight,
        .ValidateMemo, .ConsumeGasForTxSize, .DeductFee, .SetPubKey, .ValidateSigCount,
        .SigGasConsume, .SigVerification, .IncrementSequence, .RedundantRelay,
        .POADisableStaking, .POADisableWithdrawDelegatorRewards, .CommissionLimit ] :=
  rfl

theorem simapp_kinds (options : HandlerOptions) (chain : List Decorator)
    (h : SimApp.Ante.NewCosmosAnteHandler.decorators options = some chain) :
    kinds chain =
      [ .RejectMessages, .AuthzLimiter, .SetUpContext, .MsgFilter, .DisabledModules,
        .ForbiddenProposals, .LimitSimulationGas, .CountTX, .GasRegister, .CircuitBreaker,
        .ExtensionOptions, .ValidateBasic, .TxTimeoutHeight, .ValidateMemo, .MinGasPrice,
        .ConsumeGasForTxSize, .DeductFee, .SetPubKey, .ValidateSigCount, .SigGasConsume,
        .SigVerification, .IncrementSequence, .RedundantRelay, .GasWanted,
        .POADisableStaking, .POADisableWithdrawDelegatorRewards, .CommissionLimit ] := by
  unfold SimApp.Ante.NewCosmosAnteHandler.decorators at h
  cases hc : options.WasmConfig with
  | none => simp [hc] at h
  | some wc =>
    cases hw : options.WasmKeeper with
    | none => simp [hc, hw] at h
    | some wk =>
      simp only [hc, hw, Option.bind_eq_bind, Option.some_bind, Option.pure_def,
        Option.some.injEq] at h
      subst h
      rfl

theorem standard_kinds (options : HandlerOptions) (chain : List Decorator)
    (h : IsStandardChain options chain) :
    kinds chain =
        [ .SetUpContext, .CircuitBreaker, .ExtensionOptions, .ValidateBasic, .TxTimeoutHeight,
          .ValidateMemo, .ConsumeGasForTxSize, .DeductFee, .SetPubKey, .ValidateSigCount,
          .SigGasConsume, .SigVerification, .IncrementSequence, .RedundantRelay,
          .POADisableStaking, .POADisableWithdrawDelegatorRewards, .CommissionLimit ]
      ∨ kinds chain =
        [ .RejectMessages, .AuthzLimiter, .SetUpContext, .MsgFilter, .DisabledModules,
          .ForbiddenProposals, .LimitSimulationGas, .CountTX, .GasRegister, .CircuitBreaker,
          .ExtensionOptions, .ValidateBasic, .TxTimeoutHeight, .ValidateMemo, .MinGasPrice,
          .ConsumeGasForTxSize, .DeductFee, .SetPubKey, .ValidateSigCount, .SigGasConsume,
          .SigVerification, .IncrementSequence, .RedundantRelay, .GasWanted,
          .POADisableStaking, .POADisableWithdrawDelegatorRewards, .CommissionLimit ] := by
  rcases h with h | h
  · left; rw [h]; exact app_kinds options
  · right; exact simapp_kinds options chain h

theorem length_eq_kinds_length (chain : List Decorator) : chain.length = (kinds chain).length := by
  simp [kinds]

/-! ## Lemmas on the sample behaviours -/

theorem sampleSem_callsNext (failing : Option Kind) (d : Decorator)
    (h1 : some d.kind ≠ failing) (h2 : d.kind ≠ Kind.IncrementSequence)
    (ctx : Nat) (tx : Unit) (simulate : Bool) (store : Nat) :
    CallsNext (instantiate (sampleSem failing) d) ctx tx simulate store ctx store := by
  intro next trace
  simp [instantiate, sampleSem, h1, h2]

theorem sampleSem_returnsError (failing : Option Kind) (d : Decorator)
    (h1 : some d.kind = failing) (ctx : Nat) (tx : Unit) (simulate : Bool) (store : Nat) :
    ReturnsError (instantiate (sampleSem failing) d) ctx tx simulate store ctx 1 store := by
  intro next trace
  simp [instantiate, sampleSem, h1]

theorem sampleSem_frames (failing : Option Kind) :
    OnlyIncrementSequenceWrites (sampleSem failing) (fun store => store) := by
  intro d hd ctx tx simulate store ctx' store'
  constructor
  · intro hcall
    have h := hcall (fun c _ _ s t => { ctx := c, err := none, store := s, trace := t }) []
    by_cases hf : some d.kind = failing
    · simp [instantiate, sampleSem, hf] at h
    · simp [instantiate, sampleSem, hf, hd] at h
      exact h.2.symm
  · intro e hret
    have h := hret (fun c _ _ s t => { ctx := c, err := none, store := s, trace := t }) []
    by_cases hf : some d.kind = failing
    · simp [instantiate, sampleSem, hf] at h
      exact h.2.2.symm
    · simp [instantiate, sampleSem, hf, hd] at h

theorem sample_run :
    RunsTo ((App.Ante.NewCosmosAnteHandler.decorators fullOptions).map
        (instantiate (sampleSem (some Kind.SigVerification))))
      () false (fun _ => (0, 0)) 11 := by
  refine ⟨by decide, ?_, ?_⟩
  · intro i hi hik
    interval_cases i <;>
      exact sampleSem_callsNext _ _ (by decide) (by decide) 0 () false 0
  · intro hk
    exact ⟨0, 1, 0, sampleSem_returnsError _ _ rfl 0 () false 0⟩

theorem sampleSem_increments (failing : Option Kind) (d : Decorator)
    (h1 : some d.kind ≠ failing) (h2 : d.kind = Kind.IncrementSequence)
    (ctx : Nat) (tx : Unit) (simulate : Bool) (store : Nat) :
    CallsNext (instantiate (sampleSem failing) d) ctx tx simulate store ctx (store + 1) := by
  intro next trace
  rw [h2] at h1
  simp [instantiate, sampleSem, h1, h2]

theorem sample_run_commission :
    RunsTo ((App.Ante.NewCosmosAnteHandler.decorators fullOptions).map
        (instantiate (sampleSem (some Kind.CommissionLimit))))
      () false sampleStates 16 := by
  refine ⟨by decide, ?_, ?_⟩
  · intro i hi hik
    interval_cases i
    case «12» =>
      exact sampleSem_increments (some Kind.CommissionLimit)
        (Decorator.NewIncrementSequenceDecorator (some 2)) (by decide) rfl 0 () false 0
    all_goals exact sampleSem_callsNext _ _ (by decide) (by decide) 0 () false _
  · intro hk
    exact ⟨0, 1, 1, sampleSem_returnsError _ _ rfl 0 () false 1⟩

theorem simapp_isSome_iff (options : HandlerOptions) :
    (SimApp.Ante.NewCosmosAnteHandler.decorators options).isSome = true ↔
      (options.WasmConfig.isSome = true ∧ options.WasmKeeper.isSome = true) := by
  unfold SimApp.Ante.NewCosmosAnteHandler.decorators
  cases hc : options.WasmConfig with
  | none => simp
  | some wc =>
    cases hw : options.WasmKeeper with
    | none => simp
    | some wk => simp

theorem nodup_of_kinds_nodup (chain : List Decorator) (h : (kinds chain).Nodup) :
    chain.Nodup :=
  List.Nodup.of_map Decorator.kind h

/-! ## Theorems -/

/-- C1 (as stated, refuted): `Validate` does not fail exactly when a capability that
a decorator is constructed from is absent.  With only `Cdc` nil it fails although
every decorator capability is present; with only `IBCKeeper`, only
`FeegrantKeeper` or only `ExtensionOptionChecker` nil it succeeds although a
capability passed to a decorator constructor is absent. -/
theorem validate_not_iff_capabilityAbsent :
    (({ fullOptions with Cdc := none }).Validate.isSome = true
        ∧ capabilityAbsent { fullOptions with Cdc := none } = false)
      ∧ (({ fullOptions with IBCKeeper := none }).Validate = none
        ∧ capabilityAbsent { fullOptions with IBCKeeper := none } = true)
      ∧ (({ fullOptions with FeegrantKeeper := none }).Validate = none
        ∧ capabilityAbsent { fullOptions with FeegrantKeeper := none } = true)
      ∧ (({ fullOptions with ExtensionOptionChecker := none }).Validate = none
        ∧ capabilityAbsent { fullOptions with ExtensionOptionChecker := none } = true) := by
  decide

/-- C1 (amended): `Validate` returns an error if and only if `Cdc` is nil or a
capability that a decorator of the active pipeline is constructed from, other than
`FeegrantKeeper`, `ExtensionOptionChecker` and `IBCKeeper`, is nil. -/
theorem validate_isSome_iff (options : HandlerOptions) :
    options.Validate.isSome = true ↔
      (options.Cdc = none ∨
        capabilityAbsent { options with FeegrantKeeper := some 0,
                                        ExtensionOptionChecker := some 0,
                                        IBCKeeper := some 0 } = true) := by
  have h1 := validate_eq_none_iff options
  have h2 := capabilityAbsent_eq_false_iff
    { options with FeegrantKeeper := some 0, ExtensionOptionChecker := some 0,
                   IBCKeeper := some 0 }
  simp only [Option.isSome_some, true_and, and_true] at h2
  have h3 := Bool.not_eq_false (capabilityAbsent
    { options with FeegrantKeeper := some 0, ExtensionOptionChecker := some 0,
                   IBCKeeper := some 0 })
  rw [h2] at h3
  rw [Option.isSome_iff_ne_none, ne_eq, h1, ← h3, ← Option.not_isSome_iff_eq_none, not_and_or]
  refine or_congr Iff.rfl (not_congr ⟨?_, ?_⟩)
  · rintro ⟨ak, bk, sgc, smh, ck, wc, tcs, wk, tfc, fmk, ek⟩
    exact ⟨wc, wk, tcs, ck, ak, fmk, ek, bk, tfc, sgc, smh⟩
  · rintro ⟨wc, wk, tcs, ck, ak, fmk, ek, bk, tfc, sgc, smh⟩
    exact ⟨ak, bk, sgc, smh, ck, wc, tcs, wk, tfc, fmk, ek⟩

/-- C2: `Validate` checks the twelve capabilities in the order Cdc, AccountKeeper,
BankKeeper, SigGasConsumer, SignModeHandler, CircuitKeeper, WasmConfig,
TXCounterStoreService, WasmKeeper, TxFeeChecker, FeeMarketKeeper, EvmKeeper: its
result is the error naming the first nil capability in that order, whatever later
capabilities are nil as well; every error it returns is a wrap of `ErrLogic`; and
it returns nil exactly when all twelve capabilities are non-nil. -/
theorem validate_reports_first_missing (options : HandlerOptions) :
    validateOrder.map Prod.fst =
        [ .Cdc, .AccountKeeper, .BankKeeper, .SigGasConsumer, .SignModeHandler, .CircuitKeeper,
          .WasmConfig, .TXCounterStoreService, .WasmKeeper, .TxFeeChecker, .FeeMarketKeeper,
          .EvmKeeper ]
      ∧ options.Validate = firstMissing options
      ∧ (options.Validate = none
          ∨ ∃ description, options.Validate = some (Wrap ErrLogic description))
      ∧ (options.Validate = none ↔
          (options.Cdc.isSome = true ∧ options.AccountKeeper.isSome = true
            ∧ options.BankKeeper.isSome = true ∧ options.SigGasConsumer.isSome = true
            ∧ options.SignModeHandler.isSome = true ∧ options.CircuitKeeper.isSome = true
            ∧ options.WasmConfig.isSome = true ∧ options.TXCounterStoreService.isSome = true
            ∧ options.WasmKeeper.isSome = true ∧ options.TxFeeChecker.isSome = true
            ∧ options.FeeMarketKeeper.isSome = true ∧ options.EvmKeeper.isSome = true)) := by
  have hfirst : options.Validate = firstMissing options := by
    by_cases h1 : options.Cdc = none
    · simp [HandlerOptions.Validate, firstMissing, validateOrder, HandlerOptions.isNil, h1]
    by_cases h2 : options.AccountKeeper = none
    · simp [HandlerOptions.Validate, firstMissing, validateOrder, HandlerOptions.isNil, h1, h2]
    by_cases h3 : options.BankKeeper = none
    · simp [HandlerOptions.Validate, firstMissing, validateOrder, HandlerOptions.isNil, h1, h2,
        h3]
    by_cases h4 : options.SigGasConsumer = none
    · simp [HandlerOptions.Validate, firstMissing, validateOrder, HandlerOptions.isNil, h1, h2,
        h3, h4]
    by_cases h5 : options.SignModeHandler = none
    · simp [HandlerOptions.Validate, firstMissing, validateOrder, HandlerOptions.isNil, h1, h2,
        h3, h4, h5]
    by_cases h6 : options.CircuitKeeper = none
    · simp [HandlerOptions.Validate, firstMissing, validateOrder, HandlerOptions.isNil, h1, h2,
        h3, h4, h5, h6]
    by_cases h7 : options.WasmConfig = none
    · simp [HandlerOptions.Validate, firstMissing, validateOrder, HandlerOptions.isNil, h1, h2,
        h3, h4, h5, h6, h7]
    by_cases h8 : options.TXCounterStoreService = none
    · simp [HandlerOptions.Validate, firstMissing, validateOrder, HandlerOptions.isNil, h1, h2,
        h3, h4, h5, h6, h7, h8]
    by_cases h9 : options.WasmKeeper = none
    · simp [HandlerOptions.Validate, firstMissing, validateOrder, HandlerOptions.isNil, h1, h2,
        h3, h4, h5, h6, h7, h8, h9]
    by_cases h10 : options.TxFeeChecker = none
    · simp [HandlerOptions.Validate, firstMissing, validateOrder, HandlerOptions.isNil, h1, h2,
        h3, h4, h5, h6, h7, h8, h9, h10]
    by_cases h11 : options.FeeMarketKeeper = none
    · simp [HandlerOptions.Validate, firstMissing, validateOrder, HandlerOptions.isNil, h1, h2,
        h3, h4, h5, h6, h7, h8, h9, h10, h11]
    by_cases h12 : options.EvmKeeper = none
    · simp [HandlerOptions.Validate, firstMissing, validateOrder, HandlerOptions.isNil, h1, h2,
        h3, h4, h5, h6, h7, h8, h9, h10, h11, h12]
    simp [HandlerOptions.Validate, firstMissing, validateOrder, HandlerOptions.isNil, h1, h2,
      h3, h4, h5, h6, h7, h8, h9, h10, h11, h12]
  refine ⟨rfl, hfirst, ?_, validate_eq_none_iff options⟩
  rw [hfirst]
  unfold firstMissing
  cases validateOrder.find? (fun p => options.isNil p.1) with
  | none => left; rfl
  | some p => right; exact ⟨p.2, rfl⟩

/-- C3: in every standard chain (both variants) the SetPubKey decorator occurs, and
at a strictly smaller position than the ValidateSigCount, SigGasConsume and
SigVerification decorators, which occur too; consequently, in every run of the
chain in which the invoked decorators call their continuation until one returns
an error or the chain ends, whenever one of those three was invoked, SetPubKey
had been invoked before it and had called its continuation. -/
theorem setPubKey_before_signature_decorators {Ctx Tx Err σ : Type}
    (options : HandlerOptions) (chain : List Decorator) (h : IsStandardChain options chain)
    (sem : Decorator → AnteHandleFn Decorator Ctx Tx Err σ) (tx : Tx) (simulate : Bool)
    (cs : Nat → Ctx × σ) (k : Nat)
    (hrun : RunsTo (chain.map (instantiate sem)) tx simulate cs k) :
    (Kind.SetPubKey ∈ kinds chain ∧ Kind.ValidateSigCount ∈ kinds chain
        ∧ Kind.SigGasConsume ∈ kinds chain ∧ Kind.SigVerification ∈ kinds chain)
      ∧ (position .SetPubKey chain < position .ValidateSigCount chain
        ∧ position .SetPubKey chain < position .SigGasConsume chain
        ∧ position .SetPubKey chain < position .SigVerification chain)
      ∧ InvokedAfterPassing sem tx simulate cs
          (ChainAnteDecorators (chain.map (instantiate sem)) (cs 0).1 tx simulate (cs 0).2 [])
          .SetPubKey [.ValidateSigCount, .SigGasConsume, .SigVerification] := by
  have hk := standard_kinds options chain h
  refine ⟨?_, ?_, ?_⟩
  · rcases hk with hk | hk <;> rw [hk] <;> decide
  · rcases hk with hk | hk <;> simp only [position, hk] <;> decide
  · apply invokedAfterPassing_of_position sem chain tx simulate cs k hrun
    · rw [length_eq_kinds_length]
      rcases hk with hk | hk <;> simp only [position, hk] <;> decide
    · apply position_lt_of_take_all
      rcases hk with hk | hk <;> simp only [position, hk] <;> decide

/-- Witness of C3: the `app/ante` chain of the fully populated options, in the run
in which signature verification returns an error. -/
theorem setPubKey_before_signature_decorators_witness :
    IsStandardChain fullOptions (App.Ante.NewCosmosAnteHandler.decorators fullOptions)
      ∧ RunsTo ((App.Ante.NewCosmosAnteHandler.decorators fullOptions).map
          (instantiate (sampleSem (some Kind.SigVerification)))) () false (fun _ => (0, 0)) 11
      ∧ position .SetPubKey (App.Ante.NewCosmosAnteHandler.decorators fullOptions)
          < position .SigVerification (App.Ante.NewCosmosAnteHandler.decorators fullOptions)
      ∧ InvokedAfterPassing (sampleSem (some Kind.SigVerification)) () false (fun _ => (0, 0))
          (App.Ante.NewCosmosAnteHandler (sampleSem (some Kind.SigVerification)) fullOptions
            0 () false 0 [])
          .SetPubKey [.ValidateSigCount, .SigGasConsume, .SigVerification] :=
  ⟨Or.inl rfl, sample_run,
    (setPubKey_before_signature_decorators fullOptions _ (Or.inl rfl)
      (sampleSem (some Kind.SigVerification)) () false (fun _ => (0, 0)) 11
      sample_run).2.1.2.2,
    (setPubKey_before_signature_decorators fullOptions _ (Or.inl rfl)
      (sampleSem (some Kind.SigVerification)) () false (fun _ => (0, 0)) 11
      sample_run).2.2⟩

/-- C4: in every standard chain (both variants) the sequence-increment decorator
occurs strictly after the signature-verification decorator, and no decorator
after it is constructed from the account keeper or the bank keeper; hence, for
every transaction and context, in the run in which the decorators before
signature verification call their continuation and signature verification returns
an error, the chain returns an error, the sequence-increment decorator is not
invoked, and the sequence of the sender after the run equals the sequence before
it (no decorator other than the sequence increment writes sequences). -/
theorem sequence_unchanged_when_signature_fails {Ctx Tx Err σ : Type}
    (options : HandlerOptions) (chain : List Decorator) (h : IsStandardChain options chain)
    (sem : Decorator → AnteHandleFn Decorator Ctx Tx Err σ) (seq : σ → Nat)
    (hframe : OnlyIncrementSequenceWrites sem seq) (tx : Tx) (simulate : Bool)
    (cs : Nat → Ctx × σ)
    (hrun : RunsTo (chain.map (instantiate sem)) tx simulate cs
      (position .SigVerification chain)) :
    (Kind.SigVerification ∈ kinds chain ∧ Kind.IncrementSequence ∈ kinds chain
        ∧ position .SigVerification chain < position .IncrementSequence chain)
      ∧ (∀ d ∈ chain.drop (position .IncrementSequence chain + 1),
          d.kind.usesAccountState = false)
      ∧ (ChainAnteDecorators (chain.map (instantiate sem)) (cs 0).1 tx simulate (cs 0).2
          []).err.isSome = true
      ∧ (∀ X ∈ (ChainAnteDecorators (chain.map (instantiate sem)) (cs 0).1 tx simulate (cs 0).2
          []).trace, X.kind ≠ Kind.IncrementSequence)
      ∧ seq (ChainAnteDecorators (chain.map (instantiate sem)) (cs 0).1 tx simulate (cs 0).2
          []).store = seq (cs 0).2 := by
  have hk := standard_kinds options chain h
  have hpos : position .SigVerification chain < chain.length := by
    rw [length_eq_kinds_length]
    rcases hk with hk | hk <;> simp only [position, hk] <;> decide
  have hlater : ∀ (j : Nat) (X : Decorator), chain[j]? = some X →
      X.kind ∈ [Kind.IncrementSequence] → position .SigVerification chain < j := by
    apply position_lt_of_take_all
    rcases hk with hk | hk <;> simp only [position, hk] <;> decide
  have hlen : position .SigVerification chain < (chain.map (instantiate sem)).length := by
    simpa using hpos
  obtain ⟨ctx', e, store', hret⟩ := hrun.2.2 hlen
  have hout := chain_abort (chain.map (instantiate sem)) tx simulate cs
    (position .SigVerification chain) hlen hrun.2.1 ctx' e store' hret
  have hseq : ∀ i, i ≤ position .SigVerification chain → seq (cs i).2 = seq (cs 0).2 := by
    intro i
    induction i with
    | zero => intro _; rfl
    | succ i ih =>
      intro hi
      have hil : i < chain.length := by omega
      have hil' : i < (chain.map (instantiate sem)).length := by simpa using hil
      have hcall := hrun.2.1 i hil' (by omega)
      have hne : (chain.get ⟨i, hil⟩).kind ≠ Kind.IncrementSequence := by
        intro hc
        have := hlater i (chain.get ⟨i, hil⟩) (by simp [List.getElem?_eq_getElem hil])
          (by rw [hc]; simp)
        omega
      have hc2 : CallsNext (instantiate sem (chain.get ⟨i, hil⟩)) (cs i).1 tx simulate (cs i).2
          (cs (i + 1)).1 (cs (i + 1)).2 := by simpa using hcall
      rw [(hframe _ hne _ _ _ _ _ _).1 hc2]
      exact ih (by omega)
  refine ⟨?_, ?_, ?_, ?_, ?_⟩
  · refine ⟨?_, ?_, ?_⟩
    · rcases hk with hk | hk <;> rw [hk] <;> decide
    · rcases hk with hk | hk <;> rw [hk] <;> decide
    · rcases hk with hk | hk <;> simp only [position, hk] <;> decide
  · intro d hd
    have hmem : d.kind ∈ (kinds chain).drop (position .IncrementSequence chain + 1) := by
      have : (kinds chain).drop (position .IncrementSequence chain + 1)
          = (chain.drop (position .IncrementSequence chain + 1)).map Decorator.kind := by
        simp [kinds, List.map_drop]
      rw [this]
      exact List.mem_map_of_mem _ hd
    rcases hk with hk | hk <;> simp only [position, hk] at hmem <;> revert hmem <;>
      generalize d.kind = kd <;> revert kd <;> decide
  · rw [hout]; rfl
  · rw [standard_trace sem chain tx simulate cs _ hrun]
    intro X hX hc
    obtain ⟨j, hj⟩ := List.mem_iff_getElem?.mp hX
    have hjk : j < position .SigVerification chain + 1 := by
      by_contra hcon
      rw [List.getElem?_take_eq_none (by omega)] at hj
      exact absurd hj (by simp)
    rw [List.getElem?_take_of_lt hjk] at hj
    have := hlater j X hj (by simp [hc])
    omega
  · rw [hout]
    have hne : (chain.get ⟨position .SigVerification chain, hpos⟩).kind
        ≠ Kind.IncrementSequence := by
      rw [kind_at_position .SigVerification chain hpos]; decide
    have hr2 : ReturnsError (instantiate sem (chain.get ⟨position .SigVerification chain, hpos⟩))
        (cs (position .SigVerification chain)).1 tx simulate
        (cs (position .SigVerification chain)).2 ctx' e store' := by simpa using hret
    show seq store' = seq (cs 0).2
    rw [(hframe _ hne _ _ _ _ _ _).2 e hr2]
    exact hseq _ le_rfl

/-- Witness of C4: the `app/ante` chain of the fully populated options, in the run
in which signature verification returns an error. -/
theorem sequence_unchanged_when_signature_fails_witness :
    IsStandardChain fullOptions (App.Ante.NewCosmosAnteHandler.decorators fullOptions)
      ∧ OnlyIncrementSequenceWrites (sampleSem (some Kind.SigVerification)) (fun store => store)
      ∧ RunsTo ((App.Ante.NewCosmosAnteHandler.decorators fullOptions).map
          (instantiate (sampleSem (some Kind.SigVerification)))) () false (fun _ => (0, 0))
          (position .SigVerification (App.Ante.NewCosmosAnteHandler.decorators fullOptions))
      ∧ (App.Ante.NewCosmosAnteHandler (sampleSem (some Kind.SigVerification)) fullOptions
          0 () false 0 []).err.isSome = true
      ∧ (App.Ante.NewCosmosAnteHandler (sampleSem (some Kind.SigVerification)) fullOptions
          0 () false 0 []).store = 0 :=
  ⟨Or.inl rfl, sampleSem_frames _, sample_run,
    (sequence_unchanged_when_signature_fails fullOptions _ (Or.inl rfl)
      (sampleSem (some Kind.SigVerification)) (fun store => store) (sampleSem_frames _)
      () false (fun _ => (0, 0)) sample_run).2.2.1,
    (sequence_unchanged_when_signature_fails fullOptions _ (Or.inl rfl)
      (sampleSem (some Kind.SigVerification)) (fun store => store) (sampleSem_frames _)
      () false (fun _ => (0, 0)) sample_run).2.2.2.2⟩

/-- C5 (as stated, refuted): the first element of the simapp standard chain is the
RejectMessages decorator, not the context-setup decorator, which stands at
position 2. -/
theorem simapp_chain_head_is_not_setUpContext :
    (SimApp.Ante.NewCosmosAnteHandler.decorators fullOptions).bind List.head?
        = some Decorator.NewRejectMessagesDecorator
      ∧ (SimApp.Ante.NewCosmosAnteHandler.decorators fullOptions).map (position .SetUpContext)
        = some 2 := by
  decide

/-- C5 (amended): in the `app/ante` standard chain the context-setup decorator is
the first element of the list; in the `simapp/app/ante` standard chain it is the
third element, preceded by exactly the RejectMessages and AuthzLimiter decorators,
and every other decorator of the chain comes after it. -/
theorem setUpContext_first_or_after_message_filters (options : HandlerOptions)
    (chain : List Decorator)
    (h : SimApp.Ante.NewCosmosAnteHandler.decorators options = some chain) :
    (App.Ante.NewCosmosAnteHandler.decorators options).head?
        = some Decorator.NewSetUpContextDecorator
      ∧ chain.take 3 =
          [ .NewRejectMessagesDecorator,
            .NewAuthzLimiterDecorator [.MsgEthereumTx, .MsgCreateVestingAccount],
            .NewSetUpContextDecorator ]
      ∧ position .SetUpContext chain = 2
      ∧ kinds (chain.drop 3) =
          [ .MsgFilter, .DisabledModules, .ForbiddenProposals, .LimitSimulationGas, .CountTX,
            .GasRegister, .CircuitBreaker, .ExtensionOptions, .ValidateBasic, .TxTimeoutHeight,
            .ValidateMemo, .MinGasPrice, .ConsumeGasForTxSize, .DeductFee, .SetPubKey,
            .ValidateSigCount, .SigGasConsume, .SigVerification, .IncrementSequence,
            .RedundantRelay, .GasWanted, .POADisableStaking,
            .POADisableWithdrawDelegatorRewards, .CommissionLimit ] := by
  have hk := simapp_kinds options chain h
  refine ⟨rfl, ?_, ?_, ?_⟩
  · unfold SimApp.Ante.NewCosmosAnteHandler.decorators at h
    cases hc : options.WasmConfig with
    | none => simp [hc] at h
    | some wc =>
      cases hw : options.WasmKeeper with
      | none => simp [hc, hw] at h
      | some wk =>
        simp only [hc, hw, Option.bind_eq_bind, Option.some_bind, Option.pure_def,
          Option.some.injEq] at h
        subst h
        rfl
  · simp only [position, hk]; decide
  · have : kinds (chain.drop 3) = (kinds chain).drop 3 := by simp [kinds, List.map_drop]
    rw [this, hk]
    rfl

/-- Witness of C5 (amended) at the fully populated options. -/
theorem setUpContext_first_or_after_message_filters_witness :
    ∃ chain, SimApp.Ante.NewCosmosAnteHandler.decorators fullOptions = some chain
      ∧ (App.Ante.NewCosmosAnteHandler.decorators fullOptions).head?
          = some Decorator.NewSetUpContextDecorator
      ∧ position .SetUpContext chain = 2 :=
  ⟨_, rfl, (setUpContext_first_or_after_message_filters fullOptions _ rfl).1,
    (setUpContext_first_or_after_message_filters fullOptions _ rfl).2.2.1⟩

/-- C6 (as stated, refuted): in the simapp standard chain the per-transaction
counter write (CountTX, position 7) comes before the circuit-breaker decorator
(position 9). -/
theorem simapp_countTX_before_circuitBreaker :
    (SimApp.Ante.NewCosmosAnteHandler.decorators fullOptions).map
        (fun chain => (position .CountTX chain, position .CircuitBreaker chain))
      = some (7, 9) := by
  decide

/-- C6 (amended): in every standard chain (both variants) the circuit-breaker
decorator occurs strictly before the fee-deduction, public-key-setting and
sequence-increment decorators; the `app/ante` chain holds no CountTX decorator,
and in the `simapp/app/ante` chain the CountTX decorator stands before the
circuit-breaker decorator. -/
theorem circuitBreaker_before_account_writes (options : HandlerOptions)
    (chain : List Decorator) (h : IsStandardChain options chain) :
    (Kind.CircuitBreaker ∈ kinds chain ∧ Kind.DeductFee ∈ kinds chain
        ∧ Kind.SetPubKey ∈ kinds chain ∧ Kind.IncrementSequence ∈ kinds chain)
      ∧ (position .CircuitBreaker chain < position .DeductFee chain
        ∧ position .CircuitBreaker chain < position .SetPubKey chain
        ∧ position .CircuitBreaker chain < position .IncrementSequence chain)
      ∧ Kind.CountTX ∉ kinds (App.Ante.NewCosmosAnteHandler.decorators options)
      ∧ (SimApp.Ante.NewCosmosAnteHandler.decorators options = some chain →
          Kind.CountTX ∈ kinds chain
            ∧ position .CountTX chain < position .CircuitBreaker chain
            ∧ position .CountTX chain = 7 ∧ position .CircuitBreaker chain = 9) := by
  have hk := standard_kinds options chain h
  refine ⟨?_, ?_, ?_, ?_⟩
  · rcases hk with hk | hk <;> rw [hk] <;> decide
  · rcases hk with hk | hk <;> simp only [position, hk] <;> decide
  · rw [app_kinds]; decide
  · intro hs
    have hs' := simapp_kinds options chain hs
    refine ⟨?_, ?_, ?_, ?_⟩
    · rw [hs']; decide
    · simp only [position, hs']; decide
    · simp only [position, hs']; decide
    · simp only [position, hs']; decide

/-- Witness of C6 (amended): the simapp chain of the fully populated options. -/
theorem circuitBreaker_before_account_writes_witness :
    ∃ chain, IsStandardChain fullOptions chain
      ∧ position .CircuitBreaker chain < position .DeductFee chain
      ∧ position .CountTX chain < position .CircuitBreaker chain :=
  ⟨_, Or.inr rfl,
    (circuitBreaker_before_account_writes fullOptions _ (Or.inr rfl)).2.1.1,
    ((circuitBreaker_before_account_writes fullOptions _ (Or.inr rfl)).2.2.2 rfl).2.1⟩

/-- C7: the entry point built by the chain builder invokes the decorators in list
order.  For every list of decorators, context, transaction and store: if every
decorator calls its continuation, the invocation trace is the whole list of names
and the result is success, with the context handed on by the last decorator; if
the decorators before position `k` call their continuation and decorator `k`
returns an error without calling its continuation, the trace is the list of names
up to and including `k`, no later decorator is invoked, and the result is the
error of decorator `k`.  The handlers of `NewCosmosAnteHandler` and
`newMonoEVMAnteHandler` are the chain builder applied to their decorator lists. -/
theorem chain_invokes_in_list_order {ν Ctx Tx Err σ : Type}
    (ds : List (AnteDecorator ν Ctx Tx Err σ)) (tx : Tx) (simulate : Bool)
    (cs : Nat → Ctx × σ) :
    (PassesBefore ds tx simulate cs ds.length →
        ChainAnteDecorators ds (cs 0).1 tx simulate (cs 0).2 [] =
          { ctx := (cs ds.length).1, err := none, store := (cs ds.length).2,
            trace := ds.map AnteDecorator.name })
      ∧ (∀ (k : Nat) (hk : k < ds.length) (ctx' : Ctx) (e : Err) (store' : σ),
          PassesBefore ds tx simulate cs k →
          ReturnsError (ds.get ⟨k, hk⟩) (cs k).1 tx simulate (cs k).2 ctx' e store' →
          ChainAnteDecorators ds (cs 0).1 tx simulate (cs 0).2 [] =
            { ctx := ctx', err := some e, store := store',
              trace := (ds.take (k + 1)).map AnteDecorator.name })
      ∧ (∀ (sem : Decorator → AnteHandleFn Decorator Ctx Tx Err σ) (options : HandlerOptions),
          App.Ante.NewCosmosAnteHandler sem options =
              ChainAnteDecorators
                ((App.Ante.NewCosmosAnteHandler.decorators options).map (instantiate sem))
            ∧ App.Ante.newMonoEVMAnteHandler sem options =
              ChainAnteDecorators
                ((App.Ante.newMonoEVMAnteHandler.decorators options).map (instantiate sem))
            ∧ SimApp.Ante.NewCosmosAnteHandler sem options =
              (SimApp.Ante.NewCosmosAnteHandler.decorators options).map
                (fun chain => ChainAnteDecorators (chain.map (instantiate sem)))) :=
  ⟨chain_all_pass ds tx simulate cs,
    fun k hk ctx' e store' hpass hret =>
      chain_abort ds tx simulate cs k hk hpass ctx' e store' hret,
    fun _ _ => ⟨rfl, rfl, rfl⟩⟩

/-- Witness of C7: a chain of three decorators that all call their continuation is
invoked in order 1, 2, 3 and succeeds with the context 0 + 1 + 2 + 3; when the
second decorator returns an error instead, the trace is 1, 2 and the result is its
error. -/
theorem chain_invokes_in_list_order_witness :
    ChainAnteDecorators [passing 1, passing 2, passing 3] 0 () false () [] =
        { ctx := 6, err := none, store := (), trace := [1, 2, 3] }
      ∧ ChainAnteDecorators [passing 1, failing 2, passing 3] 0 () false () [] =
        { ctx := 1, err := some 2, store := (), trace := [1, 2] } := by
  constructor
  · refine (chain_invokes_in_list_order [passing 1, passing 2, passing 3] () false
      (fun i => (if i = 0 then 0 else if i = 1 then 1 else if i = 2 then 3 else 6, ()))).1 ?_
    intro i hi _
    have hi3 : i < 3 := hi
    interval_cases i <;> (intro next trace; rfl)
  · refine (chain_invokes_in_list_order [passing 1, failing 2, passing 3] () false
      (fun i => (if i = 0 then 0 else 1, ()))).2.1 1 (by decide) 1 2 () ?_ ?_
    · intro i hi hik
      have hi0 : i = 0 := by omega
      subst hi0
      intro next trace
      rfl
    · intro next trace
      rfl

/-- C8 (as stated, refuted): when the configured maximum is the largest `uint64`,
the maximum plus one wraps around to 0, and the handler of
`newMonoEVMAnteHandler` accepts the transaction whose gas wanted is that sum. -/
theorem evm_handler_accepts_wrapped_max_plus_one :
    ({ fullOptions with MaxTxGasWanted := uint64Size - 1 }).MaxTxGasWanted < uint64Size
      ∧ uint64Add ({ fullOptions with MaxTxGasWanted := uint64Size - 1 }).MaxTxGasWanted 1 = 0
      ∧ (App.Ante.newMonoEVMAnteHandler (evmSem sampleFeeMarket sampleOther)
          { fullOptions with MaxTxGasWanted := uint64Size - 1 }
          0 { gasWanted := uint64Add (uint64Size - 1) 1 } false 0 []).err = none := by
  decide

/-- C8 (amended): for every options value the chain of `newMonoEVMAnteHandler` is
exactly one decorator, the EVM mono decorator constructed from
`options.AccountKeeper`, `options.FeeMarketKeeper`, `options.EvmKeeper` and
`options.MaxTxGasWanted` unchanged, and neither it nor its family occurs in a
standard chain.  Under the ceiling rule the handler accepts a transaction whose
gas wanted equals the configured maximum (it succeeds whenever the fee-market
checks pass) and, when the maximum is below the largest `uint64`, rejects the one
whose gas wanted is the maximum plus one; it rejects for the ceiling exactly when
the gas wanted is above the maximum, so with the largest `uint64` as maximum no
transaction is rejected for the ceiling. -/
theorem evm_chain_is_the_mono_decorator {Ctx σ : Type}
    (options : HandlerOptions) (chain : List Decorator) (h : IsStandardChain options chain)
    (hmax : options.MaxTxGasWantedInRange)
    (feeMarket : Ctx → σ → EvmTx → Except Nat (Ctx × σ))
    (other : Decorator → AnteHandleFn Decorator Ctx EvmTx EvmAnteError σ)
    (ctx : Ctx) (tx : EvmTx) (htx : tx.InRange) (simulate : Bool) (store : σ) :
    App.Ante.newMonoEVMAnteHandler.decorators options =
        [ Decorator.NewEVMMonoDecorator options.AccountKeeper options.FeeMarketKeeper
            options.EvmKeeper options.MaxTxGasWanted ]
      ∧ (∀ d ∈ App.Ante.newMonoEVMAnteHandler.decorators options,
          d.kind ∉ kinds chain ∧ d ∉ chain)
      ∧ (tx.gasWanted = options.MaxTxGasWanted →
          ∀ (ctx' : Ctx) (store' : σ), feeMarket ctx store tx = .ok (ctx', store') →
            App.Ante.newMonoEVMAnteHandler (evmSem feeMarket other) options
                ctx tx simulate store [] =
              { ctx := ctx', err := none, store := store',
                trace := App.Ante.newMonoEVMAnteHandler.decorators options })
      ∧ (options.MaxTxGasWanted < uint64Size - 1 →
          tx.gasWanted = uint64Add options.MaxTxGasWanted 1 →
            App.Ante.newMonoEVMAnteHandler (evmSem feeMarket other) options
                ctx tx simulate store [] =
              { ctx := ctx, err := some EvmAnteError.exceededGasCeiling, store := store,
                trace := App.Ante.newMonoEVMAnteHandler.decorators options })
      ∧ ((App.Ante.newMonoEVMAnteHandler (evmSem feeMarket other) options
            ctx tx simulate store []).err = some EvmAnteError.exceededGasCeiling
          ↔ options.MaxTxGasWanted < tx.gasWanted)
      ∧ (options.MaxTxGasWanted = uint64Size - 1 →
          (App.Ante.newMonoEVMAnteHandler (evmSem feeMarket other) options
            ctx tx simulate store []).err ≠ some EvmAnteError.exceededGasCeiling)
      ∧ uint64Add options.MaxTxGasWanted 1 =
          (if options.MaxTxGasWanted = uint64Size - 1 then 0
            else options.MaxTxGasWanted + 1) := by
  have hk := standard_kinds options chain h
  have hrun : App.Ante.newMonoEVMAnteHandler (evmSem feeMarket other) options
      ctx tx simulate store [] =
      evmMonoAnteHandle feeMarket options.MaxTxGasWanted ctx tx simulate
        (ChainAnteDecorators []) store
        (App.Ante.newMonoEVMAnteHandler.decorators options) := rfl
  have hiff : (App.Ante.newMonoEVMAnteHandler (evmSem feeMarket other) options
      ctx tx simulate store []).err = some EvmAnteError.exceededGasCeiling
      ↔ options.MaxTxGasWanted < tx.gasWanted := by
    rw [hrun]
    unfold evmMonoAnteHandle
    by_cases hlt : options.MaxTxGasWanted < tx.gasWanted
    · simp [hlt]
    · simp only [hlt, if_false, iff_false]
      cases hfm : feeMarket ctx store tx with
      | error code => simp
      | ok p =>
        obtain ⟨c, s⟩ := p
        simp [ChainAnteDecorators]
  refine ⟨rfl, ?_, ?_, ?_, hiff, ?_, ?_⟩
  · intro d hd
    simp only [App.Ante.newMonoEVMAnteHandler.decorators, List.mem_singleton] at hd
    subst hd
    have hkind : Kind.EVMMono ∉ kinds chain := by
      rcases hk with hk | hk <;> rw [hk] <;> decide
    refine ⟨hkind, ?_⟩
    intro hmem
    exact hkind (by simpa [kinds] using List.mem_map_of_mem Decorator.kind hmem)
  · intro heq ctx' store' hfm
    rw [hrun]
    unfold evmMonoAnteHandle
    simp [heq, hfm, ChainAnteDecorators]
  · intro hlt heq
    have hsum : tx.gasWanted = options.MaxTxGasWanted + 1 := by
      rw [heq]
      unfold uint64Add
      exact Nat.mod_eq_of_lt (by omega)
    rw [hrun]
    unfold evmMonoAnteHandle
    simp [hsum]
  · intro hlast
    rw [Ne, hiff]
    have h1 : tx.gasWanted < uint64Size := htx
    omega
  · have h2 : options.MaxTxGasWanted < uint64Size := hmax
    by_cases hlast : options.MaxTxGasWanted = uint64Size - 1
    · rw [if_pos hlast, hlast]
      decide
    · rw [if_neg hlast]
      unfold uint64Add
      exact Nat.mod_eq_of_lt (by omega)

/-- Witness of C8 (amended): with the maximum 30000000 of the fully populated
options and a fee market that lets everything pass, the handler accepts gas wanted
30000000 and rejects 30000001. -/
theorem evm_chain_is_the_mono_decorator_witness :
    IsStandardChain fullOptions (App.Ante.NewCosmosAnteHandler.decorators fullOptions)
      ∧ fullOptions.MaxTxGasWantedInRange
      ∧ EvmTx.InRange { gasWanted := 30000000 } ∧ EvmTx.InRange { gasWanted := 30000001 }
      ∧ App.Ante.newMonoEVMAnteHandler (evmSem sampleFeeMarket sampleOther) fullOptions
            0 { gasWanted := 30000000 } false 0 [] =
          { ctx := 0, err := none, store := 0,
            trace := App.Ante.newMonoEVMAnteHandler.decorators fullOptions }
      ∧ App.Ante.newMonoEVMAnteHandler (evmSem sampleFeeMarket sampleOther) fullOptions
            0 { gasWanted := 30000001 } false 0 [] =
          { ctx := 0, err := some EvmAnteError.exceededGasCeiling, store := 0,
            trace := App.Ante.newMonoEVMAnteHandler.decorators fullOptions } :=
  ⟨Or.inl rfl, by decide, by decide, by decide,
    (evm_chain_is_the_mono_decorator fullOptions _ (Or.inl rfl) (by decide)
      sampleFeeMarket sampleOther 0 { gasWanted := 30000000 } (by decide) false 0).2.2.1
      rfl 0 0 rfl,
    (evm_chain_is_the_mono_decorator fullOptions _ (Or.inl rfl) (by decide)
      sampleFeeMarket sampleOther 0 { gasWanted := 30000001 } (by decide) false 0).2.2.2.1
      (by decide) (by decide)⟩

/-- C9 (the code at the failing input): with every other capability set and
`TxFeeChecker` nil, `Validate` returns the logic error "tx fee checker is required
for AnteHandler", although the field is documented as "safe to be nil". -/
theorem validate_rejects_nil_txFeeChecker :
    ({ fullOptions with TxFeeChecker := none }).Validate =
      some (Wrap ErrLogic "tx fee checker is required for AnteHandler") := by
  decide

/-- C10: in every standard chain (both variants) the gas-for-transaction-size
decorator occurs strictly before the fee-deduction decorator, and the
fee-deduction decorator strictly before each decorator of the signature family
(SetPubKey, ValidateSigCount, SigGasConsume, SigVerification). -/
theorem gas_for_size_then_fee_then_signatures (options : HandlerOptions)
    (chain : List Decorator) (h : IsStandardChain options chain) :
    (Kind.ConsumeGasForTxSize ∈ kinds chain ∧ Kind.DeductFee ∈ kinds chain
        ∧ Kind.SetPubKey ∈ kinds chain ∧ Kind.ValidateSigCount ∈ kinds chain
        ∧ Kind.SigGasConsume ∈ kinds chain ∧ Kind.SigVerification ∈ kinds chain)
      ∧ position .ConsumeGasForTxSize chain < position .DeductFee chain
      ∧ position .DeductFee chain < position .SetPubKey chain
      ∧ position .DeductFee chain < position .ValidateSigCount chain
      ∧ position .DeductFee chain < position .SigGasConsume chain
      ∧ position .DeductFee chain < position .SigVerification chain := by
  have hk := standard_kinds options chain h
  refine ⟨?_, ?_⟩
  · rcases hk with hk | hk <;> rw [hk] <;> decide
  · rcases hk with hk | hk <;> simp only [position, hk] <;> decide

/-- Witness of C10: both standard chains of the fully populated options. -/
theorem gas_for_size_then_fee_then_signatures_witness :
    (position .ConsumeGasForTxSize (App.Ante.NewCosmosAnteHandler.decorators fullOptions)
        < position .DeductFee (App.Ante.NewCosmosAnteHandler.decorators fullOptions))
      ∧ ∃ chain, SimApp.Ante.NewCosmosAnteHandler.decorators fullOptions = some chain
          ∧ position .ConsumeGasForTxSize chain < position .DeductFee chain
          ∧ position .DeductFee chain < position .SetPubKey chain :=
  ⟨(gas_for_size_then_fee_then_signatures fullOptions _ (Or.inl rfl)).2.1,
    _, rfl,
    (gas_for_size_then_fee_then_signatures fullOptions _ (Or.inr rfl)).2.1,
    (gas_for_size_then_fee_then_signatures fullOptions _ (Or.inr rfl)).2.2.1⟩

/-- C11: in every standard chain (both variants) the commission-limit decorator is
constructed with genesis-transaction rate validation disabled, floor 0.10 and
ceiling 0.50 as exact decimals (so the floor is below the ceiling, and a rate of
0.60 is strictly above the ceiling while 0.50 is not), and it is the last
decorator of the chain: no decorator follows it, so in the run in which it is
reached and returns an error the chain returns an error, the trace is the whole
chain and ends with the commission-limit decorator. -/
theorem commissionLimit_is_last_with_bounds {Ctx Tx Err σ : Type}
    (options : HandlerOptions) (chain : List Decorator) (h : IsStandardChain options chain)
    (sem : Decorator → AnteHandleFn Decorator Ctx Tx Err σ) (tx : Tx) (simulate : Bool)
    (cs : Nat → Ctx × σ)
    (hrun : RunsTo (chain.map (instantiate sem)) tx simulate cs
      (position .CommissionLimit chain)) :
    chain.getLast? = some (Decorator.NewCommissionLimitDecorator false
        (LegacyMustNewDecFromStr "0.10") (LegacyMustNewDecFromStr "0.50"))
      ∧ ((LegacyMustNewDecFromStr "0.10").scaled * 10 = 1 * 10 ^ 18
        ∧ (LegacyMustNewDecFromStr "0.50").scaled * 10 = 5 * 10 ^ 18
        ∧ (LegacyMustNewDecFromStr "0.60").scaled * 10 = 6 * 10 ^ 18)
      ∧ (LegacyMustNewDecFromStr "0.10").LT (LegacyMustNewDecFromStr "0.50") = true
      ∧ (∀ d ∈ chain.getLast?,
          d.rejectsCommissionRate (LegacyMustNewDecFromStr "0.60") = true
            ∧ d.rejectsCommissionRate (LegacyMustNewDecFromStr "0.50") = false)
      ∧ (position .CommissionLimit chain + 1 = chain.length
        ∧ chain.drop (position .CommissionLimit chain + 1) = [])
      ∧ (ChainAnteDecorators (chain.map (instantiate sem)) (cs 0).1 tx simulate (cs 0).2
          []).err.isSome = true
      ∧ (ChainAnteDecorators (chain.map (instantiate sem)) (cs 0).1 tx simulate (cs 0).2
          []).trace = chain := by
  have hk := standard_kinds options chain h
  have hlast : chain.getLast? = some (Decorator.NewCommissionLimitDecorator false
      (LegacyMustNewDecFromStr "0.10") (LegacyMustNewDecFromStr "0.50")) := by
    rcases h with h | h
    · rw [h]; rfl
    · unfold SimApp.Ante.NewCosmosAnteHandler.decorators at h
      cases hc : options.WasmConfig with
      | none => simp [hc] at h
      | some wc =>
        cases hw : options.WasmKeeper with
        | none => simp [hc, hw] at h
        | some wk =>
          simp only [hc, hw, Option.bind_eq_bind, Option.some_bind, Option.pure_def,
            Option.some.injEq] at h
          subst h
          rfl
  have hpos : position .CommissionLimit chain + 1 = chain.length := by
    rw [length_eq_kinds_length]
    rcases hk with hk | hk <;> simp only [position, hk] <;> decide
  have hlen : position .CommissionLimit chain < (chain.map (instantiate sem)).length := by
    simp only [List.length_map]; omega
  obtain ⟨ctx', e, store', hret⟩ := hrun.2.2 hlen
  have hout := chain_abort (chain.map (instantiate sem)) tx simulate cs
    (position .CommissionLimit chain) hlen hrun.2.1 ctx' e store' hret
  refine ⟨hlast, by decide, by decide, ?_, ⟨hpos, ?_⟩, ?_, ?_⟩
  · intro d hd
    rw [hlast] at hd
    simp only [Option.mem_def, Option.some.injEq] at hd
    subst hd
    decide
  · rw [hpos]; exact List.drop_length chain
  · rw [hout]; rfl
  · rw [standard_trace sem chain tx simulate cs _ hrun, hpos]
    exact List.take_length chain

/-- Witness of C11: the `app/ante` chain of the fully populated options, in the run
in which every decorator before the commission-limit decorator calls its
continuation and the commission-limit decorator returns an error. -/
theorem commissionLimit_is_last_with_bounds_witness :
    IsStandardChain fullOptions (App.Ante.NewCosmosAnteHandler.decorators fullOptions)
      ∧ RunsTo ((App.Ante.NewCosmosAnteHandler.decorators fullOptions).map
          (instantiate (sampleSem (some Kind.CommissionLimit)))) () false sampleStates
          (position .CommissionLimit (App.Ante.NewCosmosAnteHandler.decorators fullOptions))
      ∧ (App.Ante.NewCosmosAnteHandler.decorators fullOptions).getLast?
          = some (Decorator.NewCommissionLimitDecorator false
              (LegacyMustNewDecFromStr "0.10") (LegacyMustNewDecFromStr "0.50"))
      ∧ (App.Ante.NewCosmosAnteHandler (sampleSem (some Kind.CommissionLimit)) fullOptions
          0 () false 0 []).trace = App.Ante.NewCosmosAnteHandler.decorators fullOptions :=
  ⟨Or.inl rfl, sample_run_commission,
    (commissionLimit_is_last_with_bounds fullOptions _ (Or.inl rfl)
      (sampleSem (some Kind.CommissionLimit)) () false sampleStates
      sample_run_commission).1,
    (commissionLimit_is_last_with_bounds fullOptions _ (Or.inl rfl)
      (sampleSem (some Kind.CommissionLimit)) () false sampleStates
      sample_run_commission).2.2.2.2.2.2⟩

/-- C12: deleting the optional-module decorators (RejectMessages, AuthzLimiter,
consumer MsgFilter, DisabledModules, ForbiddenProposals, LimitSimulationGas,
CountTX, GasRegister, MinGasPrice, GasWanted) from the simapp standard chain yields
exactly the `app/ante` standard chain: the same seventeen decorators, constructed
from the same fields of the options and the same constants, in the same order.
The ten deleted decorators are all the optional-module decorators of the chain,
and the `app/ante` chain holds none. -/
theorem simapp_chain_without_optional_modules (options : HandlerOptions)
    (chain : List Decorator)
    (h : SimApp.Ante.NewCosmosAnteHandler.decorators options = some chain) :
    withoutOptionalModules chain = App.Ante.NewCosmosAnteHandler.decorators options
      ∧ (App.Ante.NewCosmosAnteHandler.decorators options).length = 17
      ∧ chain.length = 27
      ∧ withoutOptionalModules (App.Ante.NewCosmosAnteHandler.decorators options)
          = App.Ante.NewCosmosAnteHandler.decorators options
      ∧ (kinds chain).filter (fun kd => optionalModuleKinds.contains kd)
          = optionalModuleKinds.filter (fun kd => (kinds chain).contains kd)
      ∧ ((kinds chain).filter (fun kd => optionalModuleKinds.contains kd)).length = 10 := by
  have hk := simapp_kinds options chain h
  refine ⟨?_, rfl, ?_, rfl, ?_, ?_⟩
  · unfold SimApp.Ante.NewCosmosAnteHandler.decorators at h
    cases hc : options.WasmConfig with
    | none => simp [hc] at h
    | some wc =>
      cases hw : options.WasmKeeper with
      | none => simp [hc, hw] at h
      | some wk =>
        simp only [hc, hw, Option.bind_eq_bind, Option.some_bind, Option.pure_def,
          Option.some.injEq] at h
        subst h
        rfl
  · rw [length_eq_kinds_length, hk]; rfl
  · rw [hk]; decide
  · rw [hk]; decide

/-- Witness of C12 at the fully populated options. -/
theorem simapp_chain_without_optional_modules_witness :
    ∃ chain, SimApp.Ante.NewCosmosAnteHandler.decorators fullOptions = some chain
      ∧ withoutOptionalModules chain = App.Ante.NewCosmosAnteHandler.decorators fullOptions :=
  ⟨_, rfl, (simapp_chain_without_optional_modules fullOptions _ rfl).1⟩

/-- C13: in every standard chain (both variants) the cheap syntactic checks come in
the order circuit-breaker, extension-options, validate-basic, timeout-height, memo
validation, and all five occur strictly before the gas-for-size decorator and the
fee-deduction decorator. -/
theorem syntactic_checks_in_order_before_costs (options : HandlerOptions)
    (chain : List Decorator) (h : IsStandardChain options chain) :
    (Kind.CircuitBreaker ∈ kinds chain ∧ Kind.ExtensionOptions ∈ kinds chain
        ∧ Kind.ValidateBasic ∈ kinds chain ∧ Kind.TxTimeoutHeight ∈ kinds chain
        ∧ Kind.ValidateMemo ∈ kinds chain ∧ Kind.ConsumeGasForTxSize ∈ kinds chain
        ∧ Kind.DeductFee ∈ kinds chain)
      ∧ (position .CircuitBreaker chain < position .ExtensionOptions chain
        ∧ position .ExtensionOptions chain < position .ValidateBasic chain
        ∧ position .ValidateBasic chain < position .TxTimeoutHeight chain
        ∧ position .TxTimeoutHeight chain < position .ValidateMemo chain)
      ∧ (position .ValidateMemo chain < position .ConsumeGasForTxSize chain
        ∧ position .ValidateMemo chain < position .DeductFee chain) := by
  have hk := standard_kinds options chain h
  refine ⟨?_, ?_, ?_⟩
  · rcases hk with hk | hk <;> rw [hk] <;> decide
  · rcases hk with hk | hk <;> simp only [position, hk] <;> decide
  · rcases hk with hk | hk <;> simp only [position, hk] <;> decide

/-- Witness of C13: both standard chains of the fully populated options. -/
theorem syntactic_checks_in_order_before_costs_witness :
    (position .CircuitBreaker (App.Ante.NewCosmosAnteHandler.decorators fullOptions)
        < position .ExtensionOptions (App.Ante.NewCosmosAnteHandler.decorators fullOptions))
      ∧ ∃ chain, SimApp.Ante.NewCosmosAnteHandler.decorators fullOptions = some chain
          ∧ position .ValidateMemo chain < position .ConsumeGasForTxSize chain
          ∧ position .ValidateMemo chain < position .DeductFee chain :=
  ⟨(syntactic_checks_in_order_before_costs fullOptions _ (Or.inl rfl)).2.1.1,
    _, rfl,
    (syntactic_checks_in_order_before_costs fullOptions _ (Or.inr rfl)).2.2.1,
    (syntactic_checks_in_order_before_costs fullOptions _ (Or.inr rfl)).2.2.2⟩

/-- C14: in every standard chain (both variants) the redundant-relay decorator and
the permissioned-chain policy decorators (POA disable-staking, POA
disable-withdraw-delegator-rewards, commission-limit) occur strictly after the
core validity chain, that is after the signature-verification and the
sequence-increment decorators, and in the relative order redundant-relay,
disable-staking, disable-withdraw-rewards, commission-limit. -/
theorem policy_overlays_after_core_chain (options : HandlerOptions)
    (chain : List Decorator) (h : IsStandardChain options chain) :
    (Kind.SigVerification ∈ kinds chain ∧ Kind.IncrementSequence ∈ kinds chain
        ∧ Kind.RedundantRelay ∈ kinds chain ∧ Kind.POADisableStaking ∈ kinds chain
        ∧ Kind.POADisableWithdrawDelegatorRewards ∈ kinds chain
        ∧ Kind.CommissionLimit ∈ kinds chain)
      ∧ (position .SigVerification chain < position .IncrementSequence chain
        ∧ position .IncrementSequence chain < position .RedundantRelay chain)
      ∧ (position .RedundantRelay chain < position .POADisableStaking chain
        ∧ position .POADisableStaking chain
            < position .POADisableWithdrawDelegatorRewards chain
        ∧ position .POADisableWithdrawDelegatorRewards chain
            < position .CommissionLimit chain) := by
  have hk := standard_kinds options chain h
  refine ⟨?_, ?_, ?_⟩
  · rcases hk with hk | hk <;> rw [hk] <;> decide
  · rcases hk with hk | hk <;> simp only [position, hk] <;> decide
  · rcases hk with hk | hk <;> simp only [position, hk] <;> decide

/-- Witness of C14: both standard chains of the fully populated options. -/
theorem policy_overlays_after_core_chain_witness :
    (position .IncrementSequence (App.Ante.NewCosmosAnteHandler.decorators fullOptions)
        < position .RedundantRelay (App.Ante.NewCosmosAnteHandler.decorators fullOptions))
      ∧ ∃ chain, SimApp.Ante.NewCosmosAnteHandler.decorators fullOptions = some chain
          ∧ position .IncrementSequence chain < position .RedundantRelay chain
          ∧ position .RedundantRelay chain < position .POADisableStaking chain :=
  ⟨(policy_overlays_after_core_chain fullOptions _ (Or.inl rfl)).2.1.2,
    _, rfl,
    (policy_overlays_after_core_chain fullOptions _ (Or.inr rfl)).2.1.2,
    (policy_overlays_after_core_chain fullOptions _ (Or.inr rfl)).2.2.1⟩

/-- C15: validation makes the construction of the simapp standard chain nil-safe.
For every options value for which `Validate` returns nil, the two pointers
dereferenced while the chain is built, `options.WasmConfig` and
`options.WasmKeeper`, are non-nil, so the decorator list is built and
`NewCosmosAnteHandler` returns a handler; the list is built exactly when both
pointers are non-nil; conversely, when `WasmConfig` or `WasmKeeper` is nil,
`Validate` returns an error. -/
theorem validate_makes_construction_nil_safe {Ctx Tx Err σ : Type}
    (options : HandlerOptions) :
    (options.Validate = none →
        options.WasmConfig.isSome = true ∧ options.WasmKeeper.isSome = true
          ∧ (SimApp.Ante.NewCosmosAnteHandler.decorators options).isSome = true
          ∧ ∀ (sem : Decorator → AnteHandleFn Decorator Ctx Tx Err σ),
              (SimApp.Ante.NewCosmosAnteHandler sem options).isSome = true)
      ∧ ((SimApp.Ante.NewCosmosAnteHandler.decorators options).isSome = true ↔
          (options.WasmConfig.isSome = true ∧ options.WasmKeeper.isSome = true))
      ∧ ((options.WasmConfig = none ∨ options.WasmKeeper = none) →
          options.Validate.isSome = true) := by
  have hv := validate_eq_none_iff options
  have hs := simapp_isSome_iff options
  refine ⟨?_, hs, ?_⟩
  · intro hnone
    have hall := hv.mp hnone
    have hwc := hall.2.2.2.2.2.2.1
    have hwk := hall.2.2.2.2.2.2.2.2.1
    have hd := hs.mpr ⟨hwc, hwk⟩
    refine ⟨hwc, hwk, hd, ?_⟩
    intro sem
    obtain ⟨built, hb⟩ := Option.isSome_iff_exists.mp hd
    unfold SimApp.Ante.NewCosmosAnteHandler
    rw [hb]
    rfl
  · intro hnil
    rw [Option.isSome_iff_ne_none]
    intro hnone
    have hall := hv.mp hnone
    have hwc := hall.2.2.2.2.2.2.1
    have hwk := hall.2.2.2.2.2.2.2.2.1
    rcases hnil with hn | hn
    · rw [hn] at hwc; exact absurd hwc (by simp)
    · rw [hn] at hwk; exact absurd hwk (by simp)

/-- Witness of C15: the fully populated options validate and their chain is built;
the same options with `WasmConfig` nil, or with `WasmKeeper` nil, fail validation. -/
theorem validate_makes_construction_nil_safe_witness :
    fullOptions.Validate = none
      ∧ (SimApp.Ante.NewCosmosAnteHandler.decorators fullOptions).isSome = true
      ∧ ({ fullOptions with WasmConfig := none }).Validate.isSome = true
      ∧ ({ fullOptions with WasmKeeper := none }).Validate.isSome = true :=
  ⟨by decide,
    ((@validate_makes_construction_nil_safe Nat Unit Nat Nat
      fullOptions).1 (by decide)).2.2.1,
    (@validate_makes_construction_nil_safe Nat Unit Nat Nat
      { fullOptions with WasmConfig := none }).2.2 (Or.inl rfl),
    (@validate_makes_construction_nil_safe Nat Unit Nat Nat
      { fullOptions with WasmKeeper := none }).2.2 (Or.inr rfl)⟩

/-- C16: no decorator occurs twice in any chain.  The decorator list of the
`app/ante` standard chain (17 entries), of the simapp standard chain (27 entries)
and of the EVM chain (1 entry) is duplicate-free, even by decorator family; so in
every run of such a chain in which the invoked decorators call their continuation
until one returns an error or the chain ends, every decorator is invoked at most
once. -/
theorem no_decorator_occurs_twice {Ctx Tx Err σ : Type}
    (options : HandlerOptions) (chain : List Decorator)
    (h : IsStandardChain options chain
      ∨ chain = App.Ante.newMonoEVMAnteHandler.decorators options)
    (sem : Decorator → AnteHandleFn Decorator Ctx Tx Err σ) (tx : Tx) (simulate : Bool)
    (cs : Nat → Ctx × σ) (k : Nat)
    (hrun : RunsTo (chain.map (instantiate sem)) tx simulate cs k) :
    chain.Nodup ∧ (kinds chain).Nodup
      ∧ (App.Ante.NewCosmosAnteHandler.decorators options).length = 17
      ∧ (App.Ante.newMonoEVMAnteHandler.decorators options).length = 1
      ∧ (SimApp.Ante.NewCosmosAnteHandler.decorators options = some chain →
          chain.length = 27)
      ∧ (ChainAnteDecorators (chain.map (instantiate sem)) (cs 0).1 tx simulate (cs 0).2
          []).trace.Nodup := by
  have hkn : (kinds chain).Nodup := by
    rcases h with h | h
    · rcases standard_kinds options chain h with hk | hk <;> rw [hk] <;> decide
    · rw [h]
      have : kinds (App.Ante.newMonoEVMAnteHandler.decorators options) = [Kind.EVMMono] := rfl
      rw [this]; decide
  have hn := nodup_of_kinds_nodup chain hkn
  refine ⟨hn, hkn, rfl, rfl, ?_, ?_⟩
  · intro hs
    rw [length_eq_kinds_length, simapp_kinds options chain hs]; rfl
  · rw [standard_trace sem chain tx simulate cs k hrun]
    exact hn.sublist (List.take_sublist _ _)

/-- Witness of C16: the `app/ante` chain of the fully populated options, in the run
in which signature verification returns an error. -/
theorem no_decorator_occurs_twice_witness :
    RunsTo ((App.Ante.NewCosmosAnteHandler.decorators fullOptions).map
        (instantiate (sampleSem (some Kind.SigVerification)))) () false (fun _ => (0, 0)) 11
      ∧ (App.Ante.NewCosmosAnteHandler.decorators fullOptions).Nodup
      ∧ (App.Ante.NewCosmosAnteHandler (sampleSem (some Kind.SigVerification)) fullOptions
          0 () false 0 []).trace.Nodup :=
  ⟨sample_run,
    (no_decorator_occurs_twice fullOptions _ (Or.inl (Or.inl rfl))
      (sampleSem (some Kind.SigVerification)) () false (fun _ => (0, 0)) 11 sample_run).1,
    (no_decorator_occurs_twice fullOptions _ (Or.inl (Or.inl rfl))
      (sampleSem (some Kind.SigVerification)) () false (fun _ => (0, 0)) 11
      sample_run).2.2.2.2.2⟩

end Evmd
